import Mathlib

/-!
Verification of the Service REST storage core
(pkg/registry/core/service/storage/rest.go and
pkg/registry/core/service/strategy.go).

The Go code is shallowly embedded as pure Lean functions.  Stateful code
(the per-family cluster-IP allocators and the node-port allocator with its
two-phase operation object) is embedded by threading explicit state values.
Machine integers (Go `int` / `int32` port numbers) are modelled as `Int`;
every arithmetic operation used by the code (comparison with 0 and with
other ports) is exact, so no modular reduction is needed.

The IP allocator and the port allocator themselves live outside the
repository sample; their behaviour is modelled from the contracts stated in
the specification (allocate-specific fails when the address is taken or
outside the range, allocate-next returns any free address, release unmarks
and is idempotent for the caller, the port operation stages allocations and
deferred releases and either commits them or rolls the staged allocations
back on Finish).  A CIDR / port range is modelled as the finite list of
addresses it contains.  Go iterates `map[IPFamily]string` values in an
unspecified order; since there are only two possible families the maps are
embedded as a pair of options, iterated v4 first - none of the verified
properties depends on the iteration order.
-/

namespace KubeSvc

/-- Address family of a cluster IP (api.IPFamily). -/
inductive IPFamily where
  | ipv4
  | ipv6
deriving DecidableEq

/-- api.IPFamilyPolicyType. -/
inductive IPFamilyPolicy where
  | singleStack
  | preferDualStack
  | requireDualStack
deriving DecidableEq

/-- api.ServiceType.  Headless is not a separate type: it is ClusterIP with
the sentinel "None" as first cluster IP. -/
inductive ServiceType where
  | clusterIP
  | nodePort
  | loadBalancer
  | externalName
deriving DecidableEq

/-- api.ServiceExternalTrafficPolicyType; `etpEmpty` is the Go empty
string value the code assigns when clearing the field. -/
inductive ExternalTrafficPolicyType where
  | etpCluster
  | etpLocal
  | etpEmpty
deriving DecidableEq

/-- api.ServicePort (the fields the verified code reads or writes).
TargetPort is never touched by this code and is omitted. -/
structure ServicePort where
  name : String
  protocol : String
  port : Int
  nodePort : Int
deriving DecidableEq

/-- api.LoadBalancerIngress. -/
structure LoadBalancerIngress where
  ip : String
  hostname : String
deriving DecidableEq

/-- api.LoadBalancerStatus. -/
structure LoadBalancerStatus where
  ingress : List LoadBalancerIngress
deriving DecidableEq

/-- api.ServiceStatus. -/
structure ServiceStatus where
  loadBalancer : LoadBalancerStatus
deriving DecidableEq

/-- The zero api.ServiceStatus{}. -/
def emptyServiceStatus : ServiceStatus := ⟨⟨[]⟩⟩

/-- api.ServiceSpec (the fields the verified code reads or writes).
`selector = none` models a nil Go map. -/
structure ServiceSpec where
  type : ServiceType
  clusterIPs : List String
  ipFamilies : List IPFamily
  ipFamilyPolicy : Option IPFamilyPolicy
  selector : Option (List (String × String))
  ports : List ServicePort
  healthCheckNodePort : Int
  externalTrafficPolicy : ExternalTrafficPolicyType
  topologyKeys : List String
deriving DecidableEq

/-- ObjectMeta: the identifying fields; `ns` is the Namespace. -/
structure ObjectMeta where
  name : String
  ns : String
deriving DecidableEq

/-- api.Service. -/
structure Service where
  meta : ObjectMeta
  spec : ServiceSpec
  status : ServiceStatus
deriving DecidableEq

/-- api.ClusterIPNone. -/
def clusterIPNone : String := "None"

/-- Errors surfaced by the embedded code, by kind and field path
(k8s.io/apimachinery api errors). -/
inductive ApiError where
  | invalid (path : String) (msg : String)
  | internal (msg : String)
  | beforeCreateErr
  | storeErr
  | allocatorErr (msg : String)
deriving DecidableEq

instance {ε α : Type} [DecidableEq ε] [DecidableEq α] : DecidableEq (Except ε α) := fun x y =>
  match x, y with
  | .error e, .error f =>
    decidable_of_iff (e = f) ⟨fun h => h ▸ rfl, fun h => Except.error.inj h⟩
  | .error _, .ok _ => .isFalse (fun h => Except.noConfusion h)
  | .ok _, .error _ => .isFalse (fun h => Except.noConfusion h)
  | .ok a, .ok b =>
    decidable_of_iff (a = b) ⟨fun h => h ▸ rfl, fun h => Except.ok.inj h⟩

/-- Modelled from the spec: the textual address family of a cluster IP
literal (netutil.IsIPv6String); a v6 literal contains a colon. -/
def isIPv6String (ip : String) : Bool := ip.contains ':'

/-- One per-family IP allocator (ipallocator.Interface).  Modelled from the
spec contract in section 4.4.3: the CIDR is the finite list of its
addresses, `allocated` are the reserved ones. -/
structure IPAlloc where
  pool : List String
  allocated : List String
deriving DecidableEq

/-- The node-port allocator (portallocator.Interface).  Modelled from the
spec contract: the port range is the finite list of its ports. -/
structure PortAlloc where
  pool : List Int
  allocated : List Int
deriving DecidableEq

/-- The REST storage state the verified code touches:
`serviceIPAllocatorsByFamily` embedded as one optional allocator per
family, the cluster default family, and the node-port allocator. -/
structure RESTState where
  v4Alloc : Option IPAlloc
  v6Alloc : Option IPAlloc
  defaultServiceIPFamily : IPFamily
  serviceNodePorts : PortAlloc
deriving DecidableEq

/-- Lookup in serviceIPAllocatorsByFamily. -/
def getAlloc (rs : RESTState) (f : IPFamily) : Option IPAlloc :=
  match f with
  | .ipv4 => rs.v4Alloc
  | .ipv6 => rs.v6Alloc

/-- Write-back into serviceIPAllocatorsByFamily. -/
def setAlloc (rs : RESTState) (f : IPFamily) (a : Option IPAlloc) : RESTState :=
  match f with
  | .ipv4 => { rs with v4Alloc := a }
  | .ipv6 => { rs with v6Alloc := a }

/-- `_, found := rs.serviceIPAllocatorsByFamily[f]`. -/
def hasFamilyAllocator (rs : RESTState) (f : IPFamily) : Bool :=
  (getAlloc rs f).isSome

/-- `len(rs.serviceIPAllocatorsByFamily)`. -/
def configuredFamilyCount (rs : RESTState) : Nat :=
  (if rs.v4Alloc.isSome then 1 else 0) + (if rs.v6Alloc.isSome then 1 else 0)

/-- A `map[api.IPFamily]string` (at most one entry per family). -/
structure FamMap where
  v4 : Option String
  v6 : Option String
deriving DecidableEq

/-- The empty (or nil) family map. -/
def FamMap.empty : FamMap := ⟨none, none⟩

/-- Map lookup. -/
def FamMap.get (m : FamMap) (f : IPFamily) : Option String :=
  match f with
  | .ipv4 => m.v4
  | .ipv6 => m.v6

/-- Map write (`m[f] = ip`); overwrites any previous entry. -/
def FamMap.set (m : FamMap) (f : IPFamily) (ip : Option String) : FamMap :=
  match f with
  | .ipv4 => { m with v4 := ip }
  | .ipv6 => { m with v6 := ip }

/-! ## The IP-family defaulter / validator
(REST.tryDefaultValidateServiceClusterIPFields, rest.go lines 755-885). -/

/-- The guard of rest.go line 761: a set policy other than RequireDualStack
together with two ClusterIPs or two IPFamilies. -/
def ipFamilyPolicyPrecheckFails (svc : Service) : Bool :=
  match svc.spec.ipFamilyPolicy with
  | none => false
  | some p =>
    (svc.spec.clusterIPs.length = 2 ∨ svc.spec.ipFamilies.length = 2) ∧
      p ≠ .requireDualStack

/-- The loop of rest.go lines 769-796: walk the ClusterIPs literals with
their index, stopping (`break`) at the first empty or "None" literal; a
literal whose index is beyond the current IPFamilies length contributes its
textual family, which must be configured on the cluster. -/
def defaultFamiliesFromClusterIPs (rs : RESTState) :
    List String → Nat → List IPFamily → Except ApiError (List IPFamily)
  | [], _, fams => .ok fams
  | ip :: rest, i, fams =>
    if ip = "" ∨ ip = clusterIPNone then .ok fams
    else
      if i ≥ fams.length then
        let f := if isIPv6String ip then IPFamily.ipv6 else IPFamily.ipv4
        if hasFamilyAllocator rs f then
          defaultFamiliesFromClusterIPs rs rest (i + 1) (fams ++ [f])
        else
          .error (.invalid ("spec.clusterIPs[" ++ toString i ++ "]")
            "ClusterIP of this family can not be used, family is not configured on cluster")
      else
        defaultFamiliesFromClusterIPs rs rest (i + 1) fams

/-- `len(ClusterIPs) > 0 && ClusterIPs[0] == "None" && Selector == nil`. -/
def isHeadlessSelectorless (svc : Service) : Bool :=
  svc.spec.clusterIPs.head? = some clusterIPNone ∧ svc.spec.selector = none

/-- rest.go lines 799-827: the defaulting applied to a headless service
without a selector. -/
def applyHeadlessSelectorlessDefaults (rs : RESTState) (svc : Service) : Service :=
  let pol := match svc.spec.ipFamilyPolicy with
    | none => IPFamilyPolicy.requireDualStack
    | some p => p
  let svc := { svc with spec := { svc.spec with ipFamilyPolicy := some pol } }
  let svc :=
    if svc.spec.ipFamilies = [] then
      { svc with spec := { svc.spec with ipFamilies := [rs.defaultServiceIPFamily] } }
    else svc
  if svc.spec.ipFamilies.length < 2 then
    if pol = .requireDualStack ∨
        (pol = .preferDualStack ∧ configuredFamilyCount rs = 2) then
      if svc.spec.ipFamilies.headD .ipv4 = .ipv4 then
        { svc with spec := { svc.spec with ipFamilies := svc.spec.ipFamilies ++ [.ipv6] } }
      else
        { svc with spec := { svc.spec with ipFamilies := svc.spec.ipFamilies ++ [.ipv4] } }
    else svc
  else svc

/-- The loop of rest.go lines 849-854: every declared family must be
configured on the cluster. -/
def checkFamiliesConfigured (rs : RESTState) :
    List IPFamily → Nat → Except ApiError Unit
  | [], _ => .ok ()
  | f :: rest, i =>
    if hasFamilyAllocator rs f then checkFamiliesConfigured rs rest (i + 1)
    else
      .error (.invalid ("spec.ipFamilies[" ++ toString i ++ "]")
        "ipfamily is not configured on cluster")

/-- rest.go lines 837-854 (the else-branch of the second headless test):
reject RequireDualStack on a single-stack cluster, then check every
declared family. -/
def nonHeadlessFamilyChecks (rs : RESTState) (svc : Service) : Except ApiError Unit :=
  if svc.spec.ipFamilyPolicy = some .requireDualStack ∧ configuredFamilyCount rs < 2 then
    .error (.invalid "spec.ipFamilyPolicy" "Cluster is not configured for dual stack services")
  else
    checkFamiliesConfigured rs svc.spec.ipFamilies 0

/-- rest.go lines 857-884: default the policy to SingleStack and the
families to the cluster default, then append the missing family for a
dual-stack seeker on a dual-stack cluster (two sequential ifs as in the
source). -/
def applyFinalDefaults (rs : RESTState) (svc : Service) : Service :=
  let pol := match svc.spec.ipFamilyPolicy with
    | none => IPFamilyPolicy.singleStack
    | some p => p
  let svc := { svc with spec := { svc.spec with ipFamilyPolicy := some pol } }
  let svc :=
    if svc.spec.ipFamilies = [] then
      { svc with spec := { svc.spec with ipFamilies := [rs.defaultServiceIPFamily] } }
    else svc
  if pol ≠ .singleStack ∧ svc.spec.ipFamilies.length = 1 ∧ configuredFamilyCount rs = 2 then
    let svc :=
      if svc.spec.ipFamilies.headD .ipv4 = .ipv4 then
        { svc with spec := { svc.spec with ipFamilies := svc.spec.ipFamilies ++ [.ipv6] } }
      else svc
    if svc.spec.ipFamilies.headD .ipv4 = .ipv6 then
      { svc with spec := { svc.spec with ipFamilies := svc.spec.ipFamilies ++ [.ipv4] } }
    else svc
  else svc

/-- REST.tryDefaultValidateServiceClusterIPFields (rest.go lines 755-885),
including the second, duplicated headless-without-selector test of line 830
whose true branch only logs. -/
def tryDefaultValidateServiceClusterIPFields (rs : RESTState) (svc : Service) :
    Except ApiError Service :=
  if svc.spec.type = .externalName then .ok svc
  else if ipFamilyPolicyPrecheckFails svc then
    .error (.invalid "spec.ipFamilyPolicy"
      "if provided then it must be set to RequirdDualStack for multi families or multi ClusterIPs")
  else
    match defaultFamiliesFromClusterIPs rs svc.spec.clusterIPs 0 svc.spec.ipFamilies with
    | .error e => .error e
    | .ok fams =>
      let svc := { svc with spec := { svc.spec with ipFamilies := fams } }
      if isHeadlessSelectorless svc then .ok (applyHeadlessSelectorlessDefaults rs svc)
      else
        match (if isHeadlessSelectorless svc then .ok ()
               else nonHeadlessFamilyChecks rs svc : Except ApiError Unit) with
        | .error e => .error e
        | .ok _ => .ok (applyFinalDefaults rs svc)

/-- The same defaulter with the duplicated (second) headless test removed:
its else-branch (the per-family configured-on-cluster checks) runs
unconditionally.  Comparison definition for the dead-branch claim. -/
def tryDefaultSingleHeadlessCheck (rs : RESTState) (svc : Service) :
    Except ApiError Service :=
  if svc.spec.type = .externalName then .ok svc
  else if ipFamilyPolicyPrecheckFails svc then
    .error (.invalid "spec.ipFamilyPolicy"
      "if provided then it must be set to RequirdDualStack for multi families or multi ClusterIPs")
  else
    match defaultFamiliesFromClusterIPs rs svc.spec.clusterIPs 0 svc.spec.ipFamilies with
    | .error e => .error e
    | .ok fams =>
      let svc := { svc with spec := { svc.spec with ipFamilies := fams } }
      if isHeadlessSelectorless svc then .ok (applyHeadlessSelectorlessDefaults rs svc)
      else
        match nonHeadlessFamilyChecks rs svc with
        | .error e => .error e
        | .ok _ => .ok (applyFinalDefaults rs svc)

/-- Spec-shaped version of the literal walk: processes every literal of the
given list (no break); used to characterise `defaultFamiliesFromClusterIPs`
on the prefix before the first sentinel. -/
def defaultFamiliesNoBreak (rs : RESTState) :
    List String → Nat → List IPFamily → Except ApiError (List IPFamily)
  | [], _, fams => .ok fams
  | ip :: rest, i, fams =>
    if i ≥ fams.length then
      let f := if isIPv6String ip then IPFamily.ipv6 else IPFamily.ipv4
      if hasFamilyAllocator rs f then
        defaultFamiliesNoBreak rs rest (i + 1) (fams ++ [f])
      else
        .error (.invalid ("spec.clusterIPs[" ++ toString i ++ "]")
          "ClusterIP of this family can not be used, family is not configured on cluster")
    else
      defaultFamiliesNoBreak rs rest (i + 1) fams

/-! ## Cluster-IP allocation and release (rest.go lines 575-751)

The per-family allocator operations are modelled from the spec contract in
section 4.4.3: allocate-specific fails when the address is taken or outside
the range, allocate-next returns the first free address of the range,
release unmarks an address of the range and fails outside it. -/

/-- ipallocator Allocate(ip). -/
def ipAllocate (a : IPAlloc) (ip : String) : Except String IPAlloc :=
  if ip ∈ a.pool then
    if ip ∈ a.allocated then .error "provided IP is already allocated"
    else .ok { a with allocated := ip :: a.allocated }
  else .error "the provided IP is not in the valid range"

/-- ipallocator AllocateNext(). -/
def ipAllocateNext (a : IPAlloc) : Except String (String × IPAlloc) :=
  match a.pool.find? (fun p => !(a.allocated.contains p)) with
  | none => .error "range is full"
  | some p => .ok (p, { a with allocated := p :: a.allocated })

/-- ipallocator Release(ip); idempotent for the caller. -/
def ipRelease (a : IPAlloc) (ip : String) : Except String IPAlloc :=
  if ip ∈ a.pool then .ok { a with allocated := a.allocated.erase ip }
  else .error "the provided IP is not in the valid range"

/-- One iteration of the REST.allocClusterIPs loop body (rest.go lines
578-595) for a family with requested ip (empty string means
allocate-next).  A family with no configured allocator would make the Go
code call a method on a nil interface; the defaulter rules that out
("should always be there, as we pre validate") and the model returns an
internal error, touching nothing. -/
def allocFamilyClusterIP (rs : RESTState) (f : IPFamily) (ip : String) :
    Option String × RESTState × Option ApiError :=
  match getAlloc rs f with
  | none => (none, rs, some (.internal "no allocator configured for family"))
  | some a =>
    if ip = "" then
      match ipAllocateNext a with
      | .error msg => (none, rs, some (.internal ("failed to allocate a serviceIP: " ++ msg)))
      | .ok (p, a') => (some p, setAlloc rs f (some a'), none)
    else
      match ipAllocate a ip with
      | .error msg =>
        (none, rs, some (.invalid "spec.clusterIPs" ("failed to allocated ip: " ++ msg)))
      | .ok a' => (some ip, setAlloc rs f (some a'), none)

/-- REST.allocClusterIPs (rest.go lines 575-597): allocate each requested
family, collecting the obtained addresses; on failure return the partial
collection together with the error. -/
def allocClusterIPs (rs : RESTState) (toAlloc : FamMap) : FamMap × RESTState × Option ApiError :=
  let step4 : Option String × RESTState × Option ApiError :=
    match toAlloc.v4 with
    | none => (none, rs, none)
    | some ip => allocFamilyClusterIP rs .ipv4 ip
  match step4 with
  | (got4, rs1, some e) => (⟨got4, none⟩, rs1, some e)
  | (got4, rs1, none) =>
    let step6 : Option String × RESTState × Option ApiError :=
      match toAlloc.v6 with
      | none => (none, rs1, none)
      | some ip => allocFamilyClusterIP rs1 .ipv6 ip
    match step6 with
    | (got6, rs2, e) => (⟨got4, got6⟩, rs2, e)

/-- One iteration of the REST.releaseClusterIPs loop body (rest.go lines
606-618): a family with no configured allocator is skipped without error
and without being reported as released. -/
def releaseFamilyClusterIP (rs : RESTState) (f : IPFamily) (ip : String) :
    Option String × RESTState × Option ApiError :=
  match getAlloc rs f with
  | none => (none, rs, none)
  | some a =>
    match ipRelease a ip with
    | .error msg => (none, rs, some (.allocatorErr msg))
    | .ok a' => (some ip, setAlloc rs f (some a'), none)

/-- REST.releaseClusterIPs (rest.go lines 600-621); a nil map (both
entries absent) releases nothing. -/
def releaseClusterIPs (rs : RESTState) (toRelease : FamMap) :
    FamMap × RESTState × Option ApiError :=
  let step4 : Option String × RESTState × Option ApiError :=
    match toRelease.v4 with
    | none => (none, rs, none)
    | some ip => releaseFamilyClusterIP rs .ipv4 ip
  match step4 with
  | (got4, rs1, some e) => (⟨got4, none⟩, rs1, some e)
  | (got4, rs1, none) =>
    let step6 : Option String × RESTState × Option ApiError :=
      match toRelease.v6 with
      | none => (none, rs1, none)
      | some ip => releaseFamilyClusterIP rs1 .ipv6 ip
    match step6 with
    | (got6, rs2, e) => (⟨got4, got6⟩, rs2, e)

/-- The loop of rest.go lines 646-652: pad ClusterIPs with empty markers up
to the number of declared families and collect family to requested-ip. -/
def extendAndCollect : List IPFamily → List String → Nat → FamMap → List String × FamMap
  | [], cips, _, acc => (cips, acc)
  | f :: rest, cips, i, acc =>
    let cips := if i ≥ cips.length then cips ++ [""] else cips
    let acc := acc.set f (some (cips.getD i ""))
    extendAndCollect rest cips (i + 1) acc

/-- The write-back loop of rest.go lines 658-665: replace ClusterIPs[i]
with the address allocated for IPFamilies[i]. -/
def backfillClusterIPs (allocated : FamMap) : List IPFamily → List String → List String
  | _, [] => []
  | [], c :: cs => c :: cs
  | f :: fs, c :: cs =>
    (match allocated.get f with | some ip => ip | none => c) :: backfillClusterIPs allocated fs cs

/-- REST.allocServiceClusterIPs (rest.go lines 624-669): no allocation for
ExternalName or headless services; otherwise allocate one ip per declared
family (the requested literal, or allocate-next for an empty marker) and
back-fill the markers on success. -/
def allocServiceClusterIPs (rs : RESTState) (svc : Service) :
    FamMap × RESTState × Service × Option ApiError :=
  if svc.spec.type = .externalName then (FamMap.empty, rs, svc, none)
  else if svc.spec.clusterIPs.head? = some clusterIPNone then (FamMap.empty, rs, svc, none)
  else
    match extendAndCollect svc.spec.ipFamilies svc.spec.clusterIPs 0 FamMap.empty with
    | (cips, toAlloc) =>
      let svc := { svc with spec := { svc.spec with clusterIPs := cips } }
      match allocClusterIPs rs toAlloc with
      | (allocated, rs', some e) => (allocated, rs', svc, some e)
      | (allocated, rs', none) =>
        let cips' := backfillClusterIPs allocated svc.spec.ipFamilies svc.spec.clusterIPs
        (allocated, rs', { svc with spec := { svc.spec with clusterIPs := cips' } }, none)

/-- The collection loop of rest.go lines 745-749; release depends on the
invariant that families and ClusterIPs were set consistently (a missing
ip - where Go would panic on the index - is modelled as an empty entry). -/
def collectToRelease : List IPFamily → List String → FamMap → FamMap
  | [], _, acc => acc
  | f :: fs, [], acc => collectToRelease fs [] (acc.set f (some ""))
  | f :: fs, c :: cs, acc => collectToRelease fs cs (acc.set f (some c))

/-- REST.releaseServiceClusterIPs (rest.go lines 733-751). -/
def releaseServiceClusterIPs (rs : RESTState) (svc : Service) :
    FamMap × RESTState × Option ApiError :=
  if svc.spec.type = .externalName then (FamMap.empty, rs, none)
  else if svc.spec.clusterIPs.head? = some clusterIPNone then (FamMap.empty, rs, none)
  else
    releaseClusterIPs rs (collectToRelease svc.spec.ipFamilies svc.spec.clusterIPs FamMap.empty)

/-! ## Node ports: the port allocator and the two-phase operation

Modelled from the spec contract in section 4.5: the operation object stages
allocations (performed immediately on the shared allocator when not a dry
run) and deferred releases; Commit applies the deferred releases and turns
rollback off; Finish undoes the staged allocations unless Commit ran. -/

/-- portallocator Allocate(port) on the underlying allocator. -/
def paAllocate (pa : PortAlloc) (p : Int) : Except String PortAlloc :=
  if p ∈ pa.pool then
    if p ∈ pa.allocated then .error "provided port is already allocated"
    else .ok { pa with allocated := p :: pa.allocated }
  else .error "the provided port is not in the valid range"

/-- portallocator AllocateNext() on the underlying allocator. -/
def paAllocateNext (pa : PortAlloc) : Except String (Int × PortAlloc) :=
  match pa.pool.find? (fun p => !(pa.allocated.contains p)) with
  | none => .error "range is full"
  | some p => .ok (p, { pa with allocated := p :: pa.allocated })

/-- portallocator Release(port) on the underlying allocator. -/
def paRelease (pa : PortAlloc) (p : Int) : Except String PortAlloc :=
  if p ∈ pa.pool then .ok { pa with allocated := pa.allocated.erase p }
  else .error "the provided port is not in the valid range"

/-- Release a list of ports in order, ignoring (logging-only) individual
errors, as Rollback and Commit do. -/
def paReleaseAll (pa : PortAlloc) (ps : List Int) : PortAlloc :=
  ps.foldl (fun pa p => match paRelease pa p with | .ok pa' => pa' | .error _ => pa) pa

/-- portallocator.PortAllocationOperation: the underlying allocator plus
the staged allocations and deferred releases of one request. -/
structure PortOp where
  pa : PortAlloc
  allocated : List Int
  deferredRelease : List Int
  dryRun : Bool
  mayRollback : Bool
deriving DecidableEq

/-- portallocator.StartOperation. -/
def startOperation (pa : PortAlloc) (dryRun : Bool) : PortOp :=
  ⟨pa, [], [], dryRun, true⟩

/-- Operation Allocate(port): reserve the specific port now (dry run:
check availability only) and stage it for rollback. -/
def opAllocate (op : PortOp) (p : Int) : Except String PortOp :=
  if op.dryRun then
    if p ∉ op.pa.pool then .error "the provided port is not in the valid range"
    else if p ∈ op.pa.allocated ∨ p ∈ op.allocated then .error "provided port is already allocated"
    else .ok { op with allocated := op.allocated ++ [p] }
  else
    match paAllocate op.pa p with
    | .error msg => .error msg
    | .ok pa' => .ok { op with pa := pa', allocated := op.allocated ++ [p] }

/-- Operation AllocateNext(). -/
def opAllocateNext (op : PortOp) : Except String (Int × PortOp) :=
  if op.dryRun then
    match op.pa.pool.find?
        (fun p => !(op.pa.allocated.contains p) && !(op.allocated.contains p)) with
    | none => .error "range is full"
    | some p => .ok (p, { op with allocated := op.allocated ++ [p] })
  else
    match paAllocateNext op.pa with
    | .error msg => .error msg
    | .ok (p, pa') => .ok (p, { op with pa := pa', allocated := op.allocated ++ [p] })

/-- Operation ReleaseDeferred(port): only recorded; effective at Commit. -/
def opReleaseDeferred (op : PortOp) (p : Int) : PortOp :=
  { op with deferredRelease := op.deferredRelease ++ [p] }

/-- Operation Commit(): apply the deferred releases (errors are returned
for logging only) and disarm the rollback. -/
def opCommit (op : PortOp) : PortOp :=
  if op.dryRun then { op with mayRollback := false }
  else { op with pa := paReleaseAll op.pa op.deferredRelease, mayRollback := false }

/-- Operation Finish(): if Commit was not called, undo the staged
allocations. -/
def finishOp (op : PortOp) : PortOp :=
  if op.mayRollback && !op.dryRun then { op with pa := paReleaseAll op.pa op.allocated }
  else op

/-- Modelled from the spec: apiservice.NeedsHealthCheck, true iff
LoadBalancer with ExternalTrafficPolicy == Local. -/
def needsHealthCheck (svc : Service) : Bool :=
  decide (svc.spec.type = .loadBalancer ∧ svc.spec.externalTrafficPolicy = .etpLocal)

/-- findRequestedNodePort (rest.go lines 937-945): first service port with
the same Port number and a non-zero NodePort. -/
def findRequestedNodePort (port : Int) : List ServicePort → Int
  | [] => 0
  | sp :: rest =>
    if port = sp.port ∧ sp.nodePort ≠ 0 then sp.nodePort
    else findRequestedNodePort port rest

/-- Lookup in the local svcPortToNodePort map of initNodePorts; a missing
key yields 0, the Go zero value. -/
def valOf (m : List (Int × Int)) (p : Int) : Int :=
  match m with
  | [] => 0
  | (q, v) :: rest => if q = p then v else valOf rest p

/-- The loop of initNodePorts (rest.go lines 972-1014).  `pre` holds the
already-processed (possibly rewritten) ports, `m` the local
svcPortToNodePort map; findRequestedNodePort scans the whole in-place list,
which at each step is `pre ++` the remaining ports.  On error the operation
keeps the allocations staged so far (the caller's Finish rolls them
back). -/
def initNodePortsLoop : List ServicePort → List ServicePort → List (Int × Int) → PortOp →
    Except ApiError (List ServicePort × List (Int × Int)) × PortOp
  | pre, [], m, op => (.ok (pre, m), op)
  | pre, sp :: rest, m, op =>
    let allocatedNodePort := valOf m sp.port
    if allocatedNodePort = 0 then
      let np := findRequestedNodePort sp.port (pre ++ sp :: rest)
      if np ≠ 0 then
        match opAllocate op np with
        | .error msg =>
          (.error (.invalid ("spec.ports[" ++ toString pre.length ++ "].nodePort") msg), op)
        | .ok op' =>
          initNodePortsLoop (pre ++ [{ sp with nodePort := np }]) rest ((sp.port, np) :: m) op'
      else
        match opAllocateNext op with
        | .error msg => (.error (.internal ("failed to allocate a nodePort: " ++ msg)), op)
        | .ok (n, op') =>
          initNodePortsLoop (pre ++ [{ sp with nodePort := n }]) rest ((sp.port, n) :: m) op'
    else if sp.nodePort ≠ allocatedNodePort then
      if sp.nodePort = 0 then
        initNodePortsLoop (pre ++ [{ sp with nodePort := allocatedNodePort }]) rest m op
      else
        match opAllocate op sp.nodePort with
        | .error msg =>
          (.error (.invalid ("spec.ports[" ++ toString pre.length ++ "].nodePort") msg), op)
        | .ok op' => initNodePortsLoop (pre ++ [sp]) rest m op'
    else
      initNodePortsLoop (pre ++ [sp]) rest m op

/-- initNodePorts (rest.go lines 970-1017).  Besides the rewritten service
the model returns the final local svcPortToNodePort map. -/
def initNodePorts (svc : Service) (op : PortOp) :
    Except ApiError (Service × List (Int × Int)) × PortOp :=
  match initNodePortsLoop [] svc.spec.ports [] op with
  | (.ok (ports', m), op') =>
    (.ok ({ svc with spec := { svc.spec with ports := ports' } }, m), op')
  | (.error e, op') => (.error e, op')

/-- Specification predicate for the initNodePorts loop: a processed entry
`p` against its original `o` - the Port number is untouched, and the entry
carries either the node port recorded for its Port in the local map or its
own originally requested non-zero node port. -/
def EntryRel (m : List (Int × Int)) (p o : ServicePort) : Prop :=
  p.port = o.port ∧
    (p.nodePort = valOf m o.port ∨ (o.nodePort ≠ 0 ∧ p.nodePort = o.nodePort))

/-- allocateHealthCheckNodePort (rest.go lines 948-968). -/
def allocateHealthCheckNodePort (svc : Service) (op : PortOp) :
    Except String (Service × PortOp) :=
  let healthCheckNodePort := svc.spec.healthCheckNodePort
  if healthCheckNodePort ≠ 0 then
    match opAllocate op healthCheckNodePort with
    | .error msg => .error ("failed to allocate requested HealthCheck NodePort: " ++ msg)
    | .ok op' => .ok (svc, op')
  else
    match opAllocateNext op with
    | .error msg => .error ("failed to allocate a HealthCheck NodePort: " ++ msg)
    | .ok (p, op') =>
      .ok ({ svc with spec := { svc.spec with healthCheckNodePort := p } }, op')

/-- REST.healthCheckNodePortUpdate (rest.go lines 351-389). -/
def healthCheckNodePortUpdate (oldService service : Service) (op : PortOp) :
    Except ApiError (Service × PortOp) :=
  let neededHealthCheckNodePort := needsHealthCheck oldService
  let oldHealthCheckNodePort := oldService.spec.healthCheckNodePort
  let needsHealthCheckNodePort := needsHealthCheck service
  let newHealthCheckNodePort := service.spec.healthCheckNodePort
  if !neededHealthCheckNodePort && needsHealthCheckNodePort then
    match allocateHealthCheckNodePort service op with
    | .error msg => .error (.internal msg)
    | .ok (svc', op') => .ok (svc', op')
  else if neededHealthCheckNodePort && !needsHealthCheckNodePort then
    let op' := opReleaseDeferred op oldHealthCheckNodePort
    .ok ({ service with spec := { service.spec with healthCheckNodePort := 0 } }, op')
  else if neededHealthCheckNodePort && needsHealthCheckNodePort then
    if oldHealthCheckNodePort ≠ newHealthCheckNodePort then
      .error (.invalid "spec.healthCheckNodePort"
        "cannot change healthCheckNodePort on loadBalancer service with externalTraffic=Local during update")
    else .ok (service, op)
  else .ok (service, op)

/-! ## The Service strategy (strategy.go) -/

/-- The two feature gates read by dropServiceDisabledFields. -/
structure FeatureGates where
  ipv6DualStack : Bool
  serviceTopology : Bool
deriving DecidableEq

/-- strategy.go serviceDualStackFieldsInUse (nil service returns false). -/
def serviceDualStackFieldsInUse : Option Service → Bool
  | none => false
  | some svc => svc.spec.ipFamilyPolicy.isSome || !svc.spec.ipFamilies.isEmpty

/-- strategy.go topologyKeysInUse (nil service returns false). -/
def topologyKeysInUse : Option Service → Bool
  | none => false
  | some svc => !svc.spec.topologyKeys.isEmpty

/-- strategy.go dropServiceDisabledFields: strip dual-stack fields and
topology keys whose feature gate is off and which are not already in use. -/
def dropServiceDisabledFields (gates : FeatureGates) (newSvc : Service)
    (oldSvc : Option Service) : Service :=
  let newSvc :=
    if !gates.ipv6DualStack && !serviceDualStackFieldsInUse oldSvc &&
        !serviceDualStackFieldsInUse (some newSvc) then
      { newSvc with spec := { newSvc.spec with ipFamilies := [], ipFamilyPolicy := none } }
    else newSvc
  if !gates.serviceTopology && !topologyKeysInUse oldSvc then
    { newSvc with spec := { newSvc.spec with topologyKeys := [] } }
  else newSvc

/-- strategy.go clearClusterIPRelatedFields (lines 222-236): on a
transition into ExternalName, clear ClusterIPs, IPFamilies and
IPFamilyPolicy when the new ClusterIPs is empty or a single empty
string. -/
def clearClusterIPRelatedFields (newSvc oldSvc : Service) : Service :=
  if newSvc.spec.type = .externalName ∧ oldSvc.spec.type ≠ .externalName then
    match newSvc.spec.clusterIPs with
    | [] =>
      { newSvc with spec :=
          { newSvc.spec with clusterIPs := [], ipFamilies := [], ipFamilyPolicy := none } }
    | c :: rest =>
      if c = "" ∧ rest = [] then
        { newSvc with spec :=
            { newSvc.spec with clusterIPs := [], ipFamilies := [], ipFamilyPolicy := none } }
      else newSvc
  else newSvc

/-- svcStrategy.PrepareForCreate (strategy.go lines 94-99). -/
def svcStrategyPrepareForCreate (gates : FeatureGates) (svc : Service) : Service :=
  let svc := { svc with status := emptyServiceStatus }
  dropServiceDisabledFields gates svc none

/-- svcStrategy.PrepareForUpdate (strategy.go lines 102-111). -/
def svcStrategyPrepareForUpdate (gates : FeatureGates) (newSvc oldSvc : Service) : Service :=
  let newSvc := { newSvc with status := oldSvc.status }
  let newSvc := dropServiceDisabledFields gates newSvc (some oldSvc)
  clearClusterIPRelatedFields newSvc oldSvc

/-- svcStrategy.Export (strategy.go lines 139-160).  The Go method fails
only when the object is not a Service; the embedding is typed, so that
case cannot arise.  Status is zeroed unconditionally, before the exact
test. -/
def svcStrategyExport (svc : Service) (exact : Bool) : Service :=
  let t := { svc with status := emptyServiceStatus }
  if exact then t
  else
    let t :=
      match t.spec.clusterIPs with
      | [] => t
      | c :: _ =>
        if c ≠ clusterIPNone then { t with spec := { t.spec with clusterIPs := [] } } else t
    if t.spec.type = .nodePort then
      { t with spec :=
          { t.spec with ports := t.spec.ports.map (fun p => { p with nodePort := 0 }) } }
    else t

/-- serviceStatusStrategy.PrepareForUpdate (strategy.go lines 210-215):
status changes are not allowed to update spec. -/
def serviceStatusStrategyPrepareForUpdate (newSvc oldSvc : Service) : Service :=
  { newSvc with spec := oldSvc.spec }

/-! ## REST.Create (rest.go lines 200-271) -/

/-- The middle phase of REST.Create (rest.go lines 238-252): reserve node
ports for NodePort/LoadBalancer services, allocate the health-check node
port when needed, and validate the external-traffic field combination.
That validator lives outside the sample; its verdict is the oracle
`extTrafficOk`. -/
def createPortsPhase (svc : Service) (extTrafficOk : Bool) (op : PortOp) :
    Except ApiError Service × PortOp :=
  let step1 : Except ApiError Service × PortOp :=
    if svc.spec.type = .nodePort ∨ svc.spec.type = .loadBalancer then
      match initNodePorts svc op with
      | (.ok (svc', _), op') => (.ok svc', op')
      | (.error e, op') => (.error e, op')
    else (.ok svc, op)
  match step1 with
  | (.error e, op1) => (.error e, op1)
  | (.ok svc, op1) =>
    let step2 : Except ApiError Service × PortOp :=
      if needsHealthCheck svc then
        match allocateHealthCheckNodePort svc op1 with
        | .error msg => (.error (.internal msg), op1)
        | .ok (svc', op2) => (.ok svc', op2)
      else (.ok svc, op1)
    match step2 with
    | (.error e, op2) => (.error e, op2)
    | (.ok svc, op2) =>
      if extTrafficOk then (.ok svc, op2)
      else (.error (.invalid "service" "external traffic fields combination"), op2)

/-- REST.Create (rest.go lines 200-271), with the external collaborators
as oracles: `beforeCreateOk` is the verdict of the generic BeforeCreate
(whose mutation, PrepareForCreate, is embedded), `extTrafficOk` the
external-traffic validation verdict, `storeOk` the object store's Create
verdict (a store error stays an error through CheckGeneratedNameError).
The deferred release of the pending cluster IPs and the operation Finish
run on every exit path after their registration points, as the Go defers
do; on persist success Commit runs first and the pending-release bag is
cleared. -/
def restCreate (rs : RESTState) (svc : Service) (gates : FeatureGates)
    (beforeCreateOk extTrafficOk storeOk dryRun : Bool) :
    Except ApiError Service × RESTState :=
  if beforeCreateOk = false then (.error .beforeCreateErr, rs)
  else
    let svc := svcStrategyPrepareForCreate gates svc
    match tryDefaultValidateServiceClusterIPFields rs svc with
    | .error e => (.error e, rs)
    | .ok svc =>
      match (if dryRun then (FamMap.empty, rs, svc, none)
             else allocServiceClusterIPs rs svc :
             FamMap × RESTState × Service × Option ApiError) with
      | (toRelease, rs1, svc, ipErr) =>
        match ipErr with
        | some e =>
          match releaseClusterIPs rs1 toRelease with
          | (_, rs2, _) => (.error e, rs2)
        | none =>
          let op0 := startOperation rs1.serviceNodePorts dryRun
          match createPortsPhase svc extTrafficOk op0 with
          | (.error e, op1) =>
            let op2 := finishOp op1
            let rs2 := { rs1 with serviceNodePorts := op2.pa }
            match releaseClusterIPs rs2 toRelease with
            | (_, rs3, _) => (.error e, rs3)
          | (.ok svc, op1) =>
            if storeOk then
              let op2 := finishOp (opCommit op1)
              (.ok svc, { rs1 with serviceNodePorts := op2.pa })
            else
              let op2 := finishOp op1
              let rs2 := { rs1 with serviceNodePorts := op2.pa }
              match releaseClusterIPs rs2 toRelease with
              | (_, rs3, _) => (.error .storeErr, rs3)

/-! ## Specification predicates for the Create rollback proof -/

/-- One family of allocator state against a pending-release entry: with no
entry the allocator is unchanged; with an entry it holds exactly that
freshly pushed address of its range. -/
def FamStaged (a0 a1 : Option IPAlloc) (ent : Option String) : Prop :=
  match ent with
  | none => a1 = a0
  | some ip => ∃ al, a0 = some al ∧ ip ∈ al.pool ∧
      a1 = some { al with allocated := ip :: al.allocated }

/-- `rs1` is `rs` with exactly the addresses of `m` freshly allocated and
everything else unchanged. -/
def IPStaged (rs : RESTState) (m : FamMap) (rs1 : RESTState) : Prop :=
  FamStaged rs.v4Alloc rs1.v4Alloc m.v4 ∧ FamStaged rs.v6Alloc rs1.v6Alloc m.v6 ∧
  rs1.defaultServiceIPFamily = rs.defaultServiceIPFamily ∧
  rs1.serviceNodePorts = rs.serviceNodePorts

/-- The port operation holds exactly its staged allocations on top of the
base allocator `orig`, rollback armed, not a dry run. -/
def StagedOk (orig : PortAlloc) (op : PortOp) : Prop :=
  op.dryRun = false ∧ op.mayRollback = true ∧ op.pa.pool = orig.pool ∧
  op.pa.allocated = op.allocated.reverse ++ orig.allocated ∧
  op.allocated.Nodup ∧
  (∀ p ∈ op.allocated, p ∈ orig.pool) ∧ (∀ p ∈ op.allocated, p ∉ orig.allocated)

/-! ## Concrete inputs for witnesses and counterexamples -/

/-- A service value with the given type, cluster IPs, families, policy and
selector; the remaining fields are zero values. -/
def mkService (ty : ServiceType) (cips : List String) (fams : List IPFamily)
    (pol : Option IPFamilyPolicy) (sel : Option (List (String × String))) : Service :=
  { meta := ⟨"foo", "bar"⟩,
    spec := { type := ty, clusterIPs := cips, ipFamilies := fams, ipFamilyPolicy := pol,
              selector := sel, ports := [], healthCheckNodePort := 0,
              externalTrafficPolicy := .etpEmpty, topologyKeys := [] },
    status := ⟨⟨[]⟩⟩ }

/-- A cluster configured with an IPv4 allocator only. -/
def rsV4Only : RESTState :=
  { v4Alloc := some ⟨["10.0.0.1", "10.0.0.2"], []⟩, v6Alloc := none,
    defaultServiceIPFamily := .ipv4, serviceNodePorts := ⟨[30001, 30002, 30003], []⟩ }

/-- ClusterIPs whose first literal is empty and whose second is an IPv6
literal of a family not configured on `rsV4Only`. -/
def svcEmptyThenV6 : Service :=
  mkService .clusterIP ["", "2001:db8::1"] [] none none

/-- Headless selectorless service that fails the initial policy check:
SingleStack policy declared together with two IP families. -/
def svcHeadlessPrecheckFail : Service :=
  mkService .clusterIP [clusterIPNone] [.ipv4, .ipv6] (some .singleStack) none

/-- Minimal headless selectorless service: no policy, no families. -/
def svcHeadlessMinimal : Service :=
  mkService .clusterIP [clusterIPNone] [] none none

/-- A stored Service carrying a non-empty load-balancer Status. -/
def svcWithLBStatus : Service :=
  let base := mkService .clusterIP ["10.0.0.1"] [.ipv4] (some .singleStack) none
  { base with status := ⟨⟨[⟨"1.2.3.4", ""⟩]⟩⟩ }

/-- Old side of an update: a ClusterIP service holding an IP. -/
def svcOldClusterIP : Service :=
  mkService .clusterIP ["10.0.0.4"] [.ipv4] (some .singleStack) none

/-- New side of an update: ExternalName with the single cluster IP field
cleared to the empty string. -/
def svcNewExternalName : Service :=
  mkService .externalName [""] [.ipv4] (some .singleStack) none

/-- Both feature gates on. -/
def gatesAllOn : FeatureGates := ⟨true, true⟩

/-- A family-to-IP map holding only an IPv6 address, a family not
configured on `rsV4Only`. -/
def famV6Orphan : FamMap := ⟨none, some "2001:db8::1"⟩

/-- A LoadBalancer service with ExternalTrafficPolicy Local and a
health-check node port. -/
def svcLBLocal : Service :=
  let base := mkService .loadBalancer ["10.0.0.8"] [.ipv4] (some .singleStack) none
  { base with spec :=
      { base.spec with externalTrafficPolicy := .etpLocal, healthCheckNodePort := 32000 } }

/-- A fresh non-dry-run port operation over a small range. -/
def opSmall : PortOp := startOperation ⟨[30001, 30002, 30003], []⟩ false

/-- A plain ClusterIP service with everything left to be defaulted. -/
def svcPlainClusterIP : Service :=
  mkService .clusterIP [] [] none none

/-- A NodePort service whose two entries share Port 80 but request the
distinct node ports 30001 and 30002. -/
def svcTwoPorts : Service :=
  let base := mkService .nodePort [] [] none none
  { base with spec := { base.spec with ports :=
      [⟨"a", "TCP", 80, 30001⟩, ⟨"b", "TCP", 80, 30002⟩] } }

/-- A NodePort service whose two entries share Port 80, the first
requesting node port 30001 and the second leaving it to be defaulted. -/
def svcTwoPortsZero : Service :=
  let base := mkService .nodePort [] [] none none
  { base with spec := { base.spec with ports :=
      [⟨"a", "TCP", 80, 30001⟩, ⟨"b", "TCP", 80, 0⟩] } }

/-- `svcTwoPortsZero` after initNodePorts: both entries share 30001. -/
def svcTwoPortsZeroOut : Service :=
  let base := mkService .nodePort [] [] none none
  { base with spec := { base.spec with ports :=
      [⟨"a", "TCP", 80, 30001⟩, ⟨"b", "TCP", 80, 30001⟩] } }

/-- `opSmall` after staging the single allocation of 30001. -/
def opSmallAfter : PortOp := ⟨⟨[30001, 30002, 30003], [30001]⟩, [30001], [], false, true⟩

/-! ## Theorems -/

/-- C9: the second headless-without-selector test of the defaulter (rest.go
line 830) is unreachable in its true branch: replacing it by its else
branch (the per-family configured-on-cluster checks, which therefore run on
every execution that reaches that point) does not change the function. -/
theorem C9_second_headless_check_unreachable (rs : RESTState) (svc : Service) :
    tryDefaultValidateServiceClusterIPFields rs svc = tryDefaultSingleHeadlessCheck rs svc := by
  unfold tryDefaultValidateServiceClusterIPFields tryDefaultSingleHeadlessCheck
  split
  · rfl
  split
  · rfl
  split
  · rfl
  dsimp only
  split
  · rfl
  next hH => simp [hH]

/-- C3 counterexample: the literal walk of the defaulter breaks at the
first empty-string literal instead of skipping it, so the IPv6 literal at
index 1 is never examined: on an IPv4-only cluster the call succeeds (with
IPFamilies defaulted to the cluster default) although the claim, which
requires every non-sentinel literal to be processed, demands an Invalid
failure for the unconfigured IPv6 family. -/
theorem C3_counterexample :
    hasFamilyAllocator rsV4Only .ipv6 = false ∧
    tryDefaultValidateServiceClusterIPFields rsV4Only svcEmptyThenV6
      = .ok (mkService .clusterIP ["", "2001:db8::1"] [.ipv4] (some .singleStack) none) := by
  decide

/-- C3 (amended): the defaulter's literal walk processes the literals of
ClusterIPs in order only up to (excluding) the first empty-string or "None"
literal; on that prefix it behaves exactly as the claim states: a literal
whose index is at or beyond the current IPFamilies length fails with
Invalid when its textual family has no configured allocator and otherwise
appends that family. -/
theorem C3_literal_walk_stops_at_first_sentinel (rs : RESTState) (cips : List String)
    (i : Nat) (fams : List IPFamily) :
    defaultFamiliesFromClusterIPs rs cips i fams =
      defaultFamiliesNoBreak rs
        (cips.takeWhile (fun ip => decide (¬(ip = "" ∨ ip = clusterIPNone)))) i fams := by
  induction cips generalizing i fams with
  | nil => rfl
  | cons ip rest ih =>
    by_cases h1 : ip = ""
    · subst h1
      simp [defaultFamiliesFromClusterIPs, defaultFamiliesNoBreak]
    by_cases h2 : ip = clusterIPNone
    · subst h2
      simp [defaultFamiliesFromClusterIPs, defaultFamiliesNoBreak, clusterIPNone]
    have h : ¬(ip = "" ∨ ip = clusterIPNone) := by
      intro hc
      cases hc with
      | inl hc => exact h1 hc
      | inr hc => exact h2 hc
    simp [defaultFamiliesFromClusterIPs, defaultFamiliesNoBreak, h, h1, h2, ih]

/-- C4 counterexample: a headless selectorless Service (Type ClusterIP,
ClusterIPs ["None"], nil selector) on which the defaulter fails instead of
returning success: a SingleStack policy together with two declared IP
families trips the initial policy check before the headless branch. -/
theorem C4_counterexample :
    svcHeadlessPrecheckFail.spec.type ≠ .externalName ∧
    svcHeadlessPrecheckFail.spec.clusterIPs.head? = some clusterIPNone ∧
    svcHeadlessPrecheckFail.spec.selector = none ∧
    (tryDefaultValidateServiceClusterIPFields rsV4Only svcHeadlessPrecheckFail).isOk = false := by
  decide

/-- C4 (amended): for every Service with Type not ExternalName, first
cluster IP "None" and nil selector that passes the initial policy check,
the defaulter returns success with the headless-selectorless defaulting
applied: IPFamilyPolicy defaulted to RequireDualStack when unset,
IPFamilies defaulted to the cluster default family when empty, and the
complementary family appended - with no configured-allocator check - when
only one family is declared and the policy requires (or, on a two-family
cluster, prefers) dual stack. -/
theorem C4_headless_selectorless_defaulting (rs : RESTState) (svc : Service)
    (hty : svc.spec.type ≠ .externalName)
    (hpre : ipFamilyPolicyPrecheckFails svc = false)
    (hhead : svc.spec.clusterIPs.head? = some clusterIPNone)
    (hsel : svc.spec.selector = none) :
    tryDefaultValidateServiceClusterIPFields rs svc
      = .ok (applyHeadlessSelectorlessDefaults rs svc) ∧
    (applyHeadlessSelectorlessDefaults rs svc).spec.ipFamilyPolicy
      = some (svc.spec.ipFamilyPolicy.getD .requireDualStack) ∧
    (applyHeadlessSelectorlessDefaults rs svc).spec.ipFamilies
      = (let pol := svc.spec.ipFamilyPolicy.getD .requireDualStack
         let fams1 := if svc.spec.ipFamilies = []
           then [rs.defaultServiceIPFamily] else svc.spec.ipFamilies
         if fams1.length < 2 ∧ (pol = .requireDualStack ∨
             (pol = .preferDualStack ∧ configuredFamilyCount rs = 2))
         then fams1 ++ [if fams1.headD .ipv4 = .ipv4 then IPFamily.ipv6 else IPFamily.ipv4]
         else fams1) := by
  obtain ⟨tl, hc⟩ : ∃ tl, svc.spec.clusterIPs = clusterIPNone :: tl := by
    cases hcs : svc.spec.clusterIPs with
    | nil => rw [hcs] at hhead; simp at hhead
    | cons a tl =>
      rw [hcs] at hhead
      simp only [List.head?_cons, Option.some.injEq] at hhead
      exact ⟨tl, by rw [hhead]⟩
  have hloop : defaultFamiliesFromClusterIPs rs svc.spec.clusterIPs 0 svc.spec.ipFamilies
      = .ok svc.spec.ipFamilies := by
    rw [hc]
    simp [defaultFamiliesFromClusterIPs]
  have hH : isHeadlessSelectorless svc = true := by
    simp [isHeadlessSelectorless, hhead, hsel]
  refine ⟨?_, ?_, ?_⟩
  · unfold tryDefaultValidateServiceClusterIPFields
    rw [if_neg hty]
    simp only [hpre, Bool.false_eq_true, if_false]
    rw [hloop]
    simp [hH]
  · unfold applyHeadlessSelectorlessDefaults
    cases hp : svc.spec.ipFamilyPolicy <;> simp only [hp] <;> (repeat' split) <;> rfl
  · unfold applyHeadlessSelectorlessDefaults
    cases hp : svc.spec.ipFamilyPolicy <;> simp [hp] <;> (repeat' split) <;> simp_all

/-- C4 witness: on an IPv4-only cluster, a minimal headless selectorless
service is defaulted to RequireDualStack with families [v4, v6] although
no IPv6 allocator is configured. -/
theorem C4_witness :
    tryDefaultValidateServiceClusterIPFields rsV4Only svcHeadlessMinimal
      = .ok (applyHeadlessSelectorlessDefaults rsV4Only svcHeadlessMinimal) ∧
    (applyHeadlessSelectorlessDefaults rsV4Only svcHeadlessMinimal).spec.ipFamilies
      = [IPFamily.ipv4, IPFamily.ipv6] ∧
    hasFamilyAllocator rsV4Only .ipv6 = false :=
  ⟨(C4_headless_selectorless_defaulting rsV4Only svcHeadlessMinimal (by decide) (by decide)
      (by decide) (by decide)).1, by decide, by decide⟩

/-- C5 counterexample: Export with exact=true zeroes Status before the
exact test, so it is not the identity on a stored Service whose Status is
non-empty. -/
theorem C5_counterexample :
    svcStrategyExport svcWithLBStatus true ≠ svcWithLBStatus := by
  decide

/-- C5 (amended): Export with exact=true returns the stored Service with
only Status cleared; metadata and the whole Spec - in particular
ClusterIPs and every Port's NodePort - are preserved, so the round trip is
the identity exactly on Services whose Status is already empty. -/
theorem C5_export_exact_clears_only_status (svc : Service) :
    svcStrategyExport svc true = { svc with status := emptyServiceStatus } ∧
    (svcStrategyExport svc true).spec = svc.spec ∧
    (svcStrategyExport svc true).meta = svc.meta :=
  ⟨rfl, rfl, rfl⟩

/-- C6: on an update whose old Type is not ExternalName and whose new Type
is ExternalName, PrepareForUpdate clears ClusterIPs, IPFamilies and
IPFamilyPolicy when the new ClusterIPs is empty or exactly one empty
string, and leaves the three fields as given otherwise (including a
dual-stack slice whose first entry is empty). -/
theorem C6_externalname_transition_ip_fields (gates : FeatureGates) (oldSvc newSvc : Service)
    (hold : oldSvc.spec.type ≠ .externalName) (hnew : newSvc.spec.type = .externalName) :
    ((newSvc.spec.clusterIPs = [] ∨ newSvc.spec.clusterIPs = [""]) →
      (svcStrategyPrepareForUpdate gates newSvc oldSvc).spec.clusterIPs = [] ∧
      (svcStrategyPrepareForUpdate gates newSvc oldSvc).spec.ipFamilies = [] ∧
      (svcStrategyPrepareForUpdate gates newSvc oldSvc).spec.ipFamilyPolicy = none) ∧
    (¬(newSvc.spec.clusterIPs = [] ∨ newSvc.spec.clusterIPs = [""]) →
      (svcStrategyPrepareForUpdate gates newSvc oldSvc).spec.clusterIPs
        = newSvc.spec.clusterIPs ∧
      (svcStrategyPrepareForUpdate gates newSvc oldSvc).spec.ipFamilies
        = newSvc.spec.ipFamilies ∧
      (svcStrategyPrepareForUpdate gates newSvc oldSvc).spec.ipFamilyPolicy
        = newSvc.spec.ipFamilyPolicy) := by
  unfold svcStrategyPrepareForUpdate clearClusterIPRelatedFields dropServiceDisabledFields
  constructor
  · intro hcips
    cases hcips with
    | inl hnil =>
      simp only [serviceDualStackFieldsInUse, topologyKeysInUse]
      split <;> split <;> simp_all
    | inr hone =>
      simp only [serviceDualStackFieldsInUse, topologyKeysInUse]
      split <;> split <;> simp_all
  · intro hcips
    have hne : newSvc.spec.clusterIPs ≠ [] := fun h => hcips (Or.inl h)
    have hns : newSvc.spec.clusterIPs ≠ [""] := fun h => hcips (Or.inr h)
    simp only [serviceDualStackFieldsInUse, topologyKeysInUse]
    split <;> split <;> simp_all <;> cases hcs : newSvc.spec.clusterIPs <;> simp_all <;>
      (repeat' split) <;> simp_all

/-- C6 witness: clearing case at a concrete input - ClusterIP to
ExternalName with ClusterIPs [""]. -/
theorem C6_witness :
    (svcStrategyPrepareForUpdate gatesAllOn svcNewExternalName svcOldClusterIP).spec.clusterIPs
      = [] ∧
    (svcStrategyPrepareForUpdate gatesAllOn svcNewExternalName svcOldClusterIP).spec.ipFamilies
      = [] ∧
    (svcStrategyPrepareForUpdate gatesAllOn svcNewExternalName svcOldClusterIP).spec.ipFamilyPolicy
      = none :=
  (C6_externalname_transition_ip_fields gatesAllOn svcOldClusterIP svcNewExternalName
    (by decide) (by decide)).1 (Or.inr (by decide))

/-- C8: the status strategy's PrepareForUpdate makes the new object's Spec
exactly the old object's Spec, keeps the new Status and metadata, and
touches no allocator state (it is a pure function of the two objects), so
a Status-only update changes no Spec field. -/
theorem C8_status_update_preserves_spec (newSvc oldSvc : Service) :
    (serviceStatusStrategyPrepareForUpdate newSvc oldSvc).spec = oldSvc.spec ∧
    (serviceStatusStrategyPrepareForUpdate newSvc oldSvc).status = newSvc.status ∧
    (serviceStatusStrategyPrepareForUpdate newSvc oldSvc).meta = newSvc.meta :=
  ⟨rfl, rfl, rfl⟩

/-- C10: releaseClusterIPs skips an entry whose family has no configured
allocator: the entry is not reported as released, and the whole call
behaves as if the entry were absent (so it neither errors nor changes any
allocator because of that entry). -/
theorem C10_release_skips_unconfigured_family (rs : RESTState) (m : FamMap) (f : IPFamily)
    (h : hasFamilyAllocator rs f = false) :
    (releaseClusterIPs rs m).1.get f = none ∧
    releaseClusterIPs rs m = releaseClusterIPs rs (m.set f none) := by
  have hget : getAlloc rs f = none := by
    cases ha : getAlloc rs f with
    | none => rfl
    | some a => rw [hasFamilyAllocator, ha] at h; simp at h
  cases m with
  | mk mv4 mv6 =>
    cases f with
    | ipv4 =>
      simp only [getAlloc] at hget
      cases mv4 <;> cases mv6 <;>
        simp_all [releaseClusterIPs, releaseFamilyClusterIP, FamMap.set, FamMap.get,
          getAlloc, setAlloc]
    | ipv6 =>
      simp only [getAlloc] at hget
      cases hv4 : rs.v4Alloc with
      | none =>
        cases mv4 <;> cases mv6 <;>
          simp_all [releaseClusterIPs, releaseFamilyClusterIP, FamMap.set, FamMap.get,
            getAlloc, setAlloc]
      | some a =>
        cases mv4 with
        | none =>
          cases mv6 <;>
            simp_all [releaseClusterIPs, releaseFamilyClusterIP, FamMap.set, FamMap.get,
              getAlloc, setAlloc]
        | some ip =>
          cases hr : ipRelease a ip <;> cases mv6 <;>
            simp_all [releaseClusterIPs, releaseFamilyClusterIP, FamMap.set, FamMap.get,
              getAlloc, setAlloc]

/-- C7: while NeedsHealthCheck holds for both sides of an update, any
change of the HealthCheckNodePort value makes healthCheckNodePortUpdate
fail with an Invalid error on spec.healthCheckNodePort, and an unchanged
value succeeds leaving the port operation exactly as it was (no staged
allocation, no deferred release). -/
theorem C7_healthcheck_port_immutable_while_needed (oldSvc newSvc : Service) (op : PortOp)
    (ho : needsHealthCheck oldSvc = true) (hn : needsHealthCheck newSvc = true) :
    (newSvc.spec.healthCheckNodePort ≠ oldSvc.spec.healthCheckNodePort →
      healthCheckNodePortUpdate oldSvc newSvc op
        = .error (.invalid "spec.healthCheckNodePort"
            "cannot change healthCheckNodePort on loadBalancer service with externalTraffic=Local during update")) ∧
    (newSvc.spec.healthCheckNodePort = oldSvc.spec.healthCheckNodePort →
      healthCheckNodePortUpdate oldSvc newSvc op = .ok (newSvc, op)) := by
  unfold healthCheckNodePortUpdate
  simp only [ho, hn, Bool.not_true, Bool.false_and, Bool.true_and, Bool.and_false,
    Bool.and_true, if_false, if_true, Bool.false_eq_true, ite_false, ite_true]
  constructor
  · intro hne
    rw [if_pos (fun hc => hne hc.symm)]
  · intro heq
    rw [if_neg (fun hc => hc heq.symm)]

/-- C7 witness: a Local LoadBalancer updated to itself keeps its
health-check node port and leaves the port operation untouched. -/
theorem C7_witness :
    healthCheckNodePortUpdate svcLBLocal svcLBLocal opSmall = .ok (svcLBLocal, opSmall) :=
  (C7_healthcheck_port_immutable_while_needed svcLBLocal svcLBLocal opSmall
    (by decide) (by decide)).2 (by decide)

/-- C10 witness: on an IPv4-only cluster, releasing a map that holds only
an IPv6 address reports nothing released and equals releasing the empty
map. -/
theorem C10_witness :
    (releaseClusterIPs rsV4Only famV6Orphan).1.get .ipv6 = none ∧
    releaseClusterIPs rsV4Only famV6Orphan
      = releaseClusterIPs rsV4Only (famV6Orphan.set .ipv6 none) :=
  C10_release_skips_unconfigured_family rsV4Only famV6Orphan .ipv6 (by decide)

/-! ## Lemmas for initNodePorts (claim C2) -/

theorem valOf_cons (p v q : Int) (m : List (Int × Int)) :
    valOf ((p, v) :: m) q = if p = q then v else valOf m q := rfl

theorem paAllocate_ok (pa : PortAlloc) (p : Int) (pa' : PortAlloc)
    (h : paAllocate pa p = .ok pa') :
    pa' = { pa with allocated := p :: pa.allocated } ∧ p ∈ pa.pool ∧ p ∉ pa.allocated := by
  unfold paAllocate at h
  by_cases h1 : p ∈ pa.pool
  · rw [if_pos h1] at h
    by_cases h2 : p ∈ pa.allocated
    · rw [if_pos h2] at h; cases h
    · rw [if_neg h2] at h
      injection h with h
      exact ⟨h.symm, h1, h2⟩
  · rw [if_neg h1] at h; cases h

theorem paAllocateNext_ok (pa : PortAlloc) (n : Int) (pa' : PortAlloc)
    (h : paAllocateNext pa = .ok (n, pa')) :
    pa' = { pa with allocated := n :: pa.allocated } ∧ n ∈ pa.pool ∧ n ∉ pa.allocated := by
  unfold paAllocateNext at h
  cases hf : pa.pool.find? (fun p => !(pa.allocated.contains p)) with
  | none => rw [hf] at h; cases h
  | some q =>
    rw [hf] at h
    simp only [Except.ok.injEq, Prod.mk.injEq] at h
    obtain ⟨h1, h2⟩ := h
    subst h1
    subst h2
    refine ⟨rfl, List.mem_of_find?_eq_some hf, ?_⟩
    have hp := List.find?_some hf
    simpa using hp

theorem opAllocate_ok_pool (op : PortOp) (p : Int) (op' : PortOp)
    (h : opAllocate op p = .ok op') : op'.pa.pool = op.pa.pool := by
  unfold opAllocate at h
  by_cases hd : op.dryRun = true
  · rw [if_pos hd] at h
    by_cases h1 : p ∉ op.pa.pool
    · rw [if_pos h1] at h; cases h
    · rw [if_neg h1] at h
      by_cases h2 : p ∈ op.pa.allocated ∨ p ∈ op.allocated
      · rw [if_pos h2] at h; cases h
      · rw [if_neg h2] at h
        injection h with h
        rw [← h]
  · rw [if_neg hd] at h
    cases hp : paAllocate op.pa p with
    | error msg => rw [hp] at h; cases h
    | ok pa' =>
      rw [hp] at h
      injection h with h
      rw [← h]
      have := (paAllocate_ok op.pa p pa' hp).1
      rw [this]

theorem opAllocateNext_ok_mem (op : PortOp) (n : Int) (op' : PortOp)
    (h : opAllocateNext op = .ok (n, op')) :
    op'.pa.pool = op.pa.pool ∧ n ∈ op.pa.pool := by
  unfold opAllocateNext at h
  by_cases hd : op.dryRun = true
  · rw [if_pos hd] at h
    cases hf : op.pa.pool.find?
        (fun p => !(op.pa.allocated.contains p) && !(op.allocated.contains p)) with
    | none => rw [hf] at h; cases h
    | some q =>
      rw [hf] at h
      simp only [Except.ok.injEq, Prod.mk.injEq] at h
      obtain ⟨h1, h2⟩ := h
      subst h1
      subst h2
      exact ⟨rfl, List.mem_of_find?_eq_some hf⟩
  · rw [if_neg hd] at h
    cases hp : paAllocateNext op.pa with
    | error msg => rw [hp] at h; cases h
    | ok res =>
      obtain ⟨q, pa'⟩ := res
      rw [hp] at h
      simp only [Except.ok.injEq, Prod.mk.injEq] at h
      obtain ⟨h1, h2⟩ := h
      subst h1
      subst h2
      obtain ⟨hrec, hmem, hnl⟩ := paAllocateNext_ok op.pa q pa' hp
      exact ⟨by rw [hrec], hmem⟩

theorem rel_extend (pre opre : List ServicePort) (x y : ServicePort) (m : List (Int × Int))
    (hlen : pre.length = opre.length)
    (hrel : ∀ (k : Nat) (pk yk : ServicePort),
      pre[k]? = some pk → opre[k]? = some yk → EntryRel m pk yk)
    (hxy : EntryRel m x y) :
    ∀ (k : Nat) (pk yk : ServicePort),
      (pre ++ [x])[k]? = some pk → (opre ++ [y])[k]? = some yk → EntryRel m pk yk := by
  intro k pk yk hp ho
  by_cases hk : k < pre.length
  · rw [List.getElem?_append_left hk] at hp
    rw [List.getElem?_append_left (hlen ▸ hk)] at ho
    exact hrel k pk yk hp ho
  · by_cases hk2 : k = pre.length
    · subst hk2
      rw [List.getElem?_concat_length] at hp
      rw [hlen, List.getElem?_concat_length] at ho
      cases hp; cases ho
      exact hxy
    · have hgt : pre.length < k := by omega
      have : (pre ++ [x])[k]? = none := by
        apply List.getElem?_eq_none
        simp only [List.length_append, List.length_cons, List.length_nil]
        omega
      rw [this] at hp
      cases hp

theorem entryRel_mono (m : List (Int × Int)) (p v : Int) (hv : valOf m p = 0)
    (x y : ServicePort) (hrel : EntryRel m x y) (hy : valOf m y.port ≠ 0) :
    EntryRel ((p, v) :: m) x y := by
  have hne : p ≠ y.port := fun h => hy (h ▸ hv)
  obtain ⟨hport, hnp⟩ := hrel
  exact ⟨hport, by rw [valOf_cons, if_neg hne]; exact hnp⟩

/-- The inductive invariant of the initNodePorts loop: when the loop
succeeds, every final entry relates to its original by `EntryRel` under
the final map, and every processed original's Port is mapped to a non-zero
node port. -/
theorem initLoop_entryRel (todo : List ServicePort) :
    ∀ (pre opre : List ServicePort) (m : List (Int × Int)) (op : PortOp)
      (fin : List ServicePort) (mfin : List (Int × Int)) (opfin : PortOp),
    (0 : Int) ∉ op.pa.pool →
    pre.length = opre.length →
    (∀ (k : Nat) (pk yk : ServicePort),
      pre[k]? = some pk → opre[k]? = some yk → EntryRel m pk yk) →
    (∀ yk ∈ opre, valOf m yk.port ≠ 0) →
    initNodePortsLoop pre todo m op = (.ok (fin, mfin), opfin) →
    (∀ (k : Nat) (pk yk : ServicePort),
      fin[k]? = some pk → (opre ++ todo)[k]? = some yk → EntryRel mfin pk yk) ∧
    (∀ yk ∈ opre ++ todo, valOf mfin yk.port ≠ 0) := by
  induction todo with
  | nil =>
    intro pre opre m op fin mfin opfin hwf hlen hrel hm hres
    unfold initNodePortsLoop at hres
    cases hres
    simpa using ⟨hrel, hm⟩
  | cons sp rest ih =>
    intro pre opre m op fin mfin opfin hwf hlen hrel hm hres
    rw [show opre ++ sp :: rest = (opre ++ [sp]) ++ rest by simp]
    unfold initNodePortsLoop at hres
    by_cases hv : valOf m sp.port = 0
    · rw [if_pos hv] at hres
      dsimp only at hres
      by_cases hnp : findRequestedNodePort sp.port (pre ++ sp :: rest) ≠ 0
      · rw [if_pos hnp] at hres
        cases hca : opAllocate op (findRequestedNodePort sp.port (pre ++ sp :: rest)) with
        | error msg => rw [hca] at hres; cases hres
        | ok op' =>
          rw [hca] at hres
          set np := findRequestedNodePort sp.port (pre ++ sp :: rest) with hnpdef
          refine ih (pre ++ [{ sp with nodePort := np }]) (opre ++ [sp])
            ((sp.port, np) :: m) op' fin mfin opfin ?_ (by simp [hlen]) ?_ ?_ hres
          · rw [opAllocate_ok_pool op np op' hca]; exact hwf
          · refine rel_extend pre opre _ sp _ hlen ?_ ?_
            · intro k pk yk hp ho
              exact entryRel_mono m sp.port np hv pk yk (hrel k pk yk hp ho)
                (hm yk (List.getElem?_mem ho))
            · exact ⟨rfl, Or.inl (by rw [valOf_cons, if_pos rfl])⟩
          · intro yk hmem
            rcases List.mem_append.mp hmem with hin | hin
            · have := hm yk hin
              rw [valOf_cons, if_neg (fun h => this (by rw [← h]; exact hv))]
              exact this
            · rcases List.mem_singleton.mp hin with rfl
              rw [valOf_cons, if_pos rfl]
              exact hnp
      · rw [if_neg hnp] at hres
        cases hca : opAllocateNext op with
        | error msg => rw [hca] at hres; cases hres
        | ok res =>
          obtain ⟨n, op'⟩ := res
          rw [hca] at hres
          have hmem := opAllocateNext_ok_mem op n op' hca
          have hn0 : n ≠ 0 := fun h => hwf (h ▸ hmem.2)
          refine ih (pre ++ [{ sp with nodePort := n }]) (opre ++ [sp])
            ((sp.port, n) :: m) op' fin mfin opfin ?_ (by simp [hlen]) ?_ ?_ hres
          · rw [hmem.1]; exact hwf
          · refine rel_extend pre opre _ sp _ hlen ?_ ?_
            · intro k pk yk hp ho
              exact entryRel_mono m sp.port n hv pk yk (hrel k pk yk hp ho)
                (hm yk (List.getElem?_mem ho))
            · exact ⟨rfl, Or.inl (by rw [valOf_cons, if_pos rfl])⟩
          · intro yk hmemk
            rcases List.mem_append.mp hmemk with hin | hin
            · have := hm yk hin
              rw [valOf_cons, if_neg (fun h => this (by rw [← h]; exact hv))]
              exact this
            · rcases List.mem_singleton.mp hin with rfl
              rw [valOf_cons, if_pos rfl]
              exact hn0
    · rw [if_neg hv] at hres
      by_cases hd : sp.nodePort ≠ valOf m sp.port
      · rw [if_pos hd] at hres
        by_cases hz : sp.nodePort = 0
        · rw [if_pos hz] at hres
          refine ih (pre ++ [{ sp with nodePort := valOf m sp.port }]) (opre ++ [sp])
            m op fin mfin opfin hwf (by simp [hlen]) ?_ ?_ hres
          · exact rel_extend pre opre _ sp m hlen hrel ⟨rfl, Or.inl rfl⟩
          · intro yk hmemk
            rcases List.mem_append.mp hmemk with hin | hin
            · exact hm yk hin
            · rcases List.mem_singleton.mp hin with rfl
              exact hv
        · rw [if_neg hz] at hres
          cases hca : opAllocate op sp.nodePort with
          | error msg => rw [hca] at hres; cases hres
          | ok op' =>
            rw [hca] at hres
            refine ih (pre ++ [sp]) (opre ++ [sp]) m op' fin mfin opfin ?_
              (by simp [hlen]) ?_ ?_ hres
            · rw [opAllocate_ok_pool op sp.nodePort op' hca]; exact hwf
            · exact rel_extend pre opre sp sp m hlen hrel ⟨rfl, Or.inr ⟨hz, rfl⟩⟩
            · intro yk hmemk
              rcases List.mem_append.mp hmemk with hin | hin
              · exact hm yk hin
              · rcases List.mem_singleton.mp hin with rfl
                exact hv
      · rw [if_neg hd] at hres
        refine ih (pre ++ [sp]) (opre ++ [sp]) m op fin mfin opfin hwf
          (by simp [hlen]) ?_ ?_ hres
        · push_neg at hd
          exact rel_extend pre opre sp sp m hlen hrel ⟨rfl, Or.inl hd⟩
        · intro yk hmemk
          rcases List.mem_append.mp hmemk with hin | hin
          · exact hm yk hin
          · rcases List.mem_singleton.mp hin with rfl
            exact hv

/-! ## Lemmas for the Create rollback (claim C1) -/

theorem ipAllocate_ok (a : IPAlloc) (ip : String) (a' : IPAlloc)
    (h : ipAllocate a ip = .ok a') :
    a' = { a with allocated := ip :: a.allocated } ∧ ip ∈ a.pool := by
  unfold ipAllocate at h
  by_cases h1 : ip ∈ a.pool
  · rw [if_pos h1] at h
    by_cases h2 : ip ∈ a.allocated
    · rw [if_pos h2] at h; cases h
    · rw [if_neg h2] at h
      injection h with h
      exact ⟨h.symm, h1⟩
  · rw [if_neg h1] at h; cases h

theorem ipAllocateNext_ok (a : IPAlloc) (p : String) (a' : IPAlloc)
    (h : ipAllocateNext a = .ok (p, a')) :
    a' = { a with allocated := p :: a.allocated } ∧ p ∈ a.pool := by
  unfold ipAllocateNext at h
  cases hf : a.pool.find? (fun q => !(a.allocated.contains q)) with
  | none => rw [hf] at h; cases h
  | some q =>
    rw [hf] at h
    simp only [Except.ok.injEq, Prod.mk.injEq] at h
    obtain ⟨h1, h2⟩ := h
    subst h1
    subst h2
    exact ⟨rfl, List.mem_of_find?_eq_some hf⟩

theorem allocFamilyClusterIP_spec (rs : RESTState) (f : IPFamily) (ip : String)
    (got : Option String) (rs' : RESTState) (e : Option ApiError)
    (h : allocFamilyClusterIP rs f ip = (got, rs', e)) :
    (got = none ∧ rs' = rs) ∨
    (∃ p al, got = some p ∧ getAlloc rs f = some al ∧ p ∈ al.pool ∧
      rs' = setAlloc rs f (some { al with allocated := p :: al.allocated })) := by
  unfold allocFamilyClusterIP at h
  cases hga : getAlloc rs f with
  | none =>
    rw [hga] at h
    injection h with h1 h
    injection h with h2 h
    exact Or.inl ⟨h1.symm, h2.symm⟩
  | some al =>
    rw [hga] at h
    dsimp only at h
    by_cases hip : ip = ""
    · rw [if_pos hip] at h
      cases hn : ipAllocateNext al with
      | error msg =>
        rw [hn] at h
        injection h with h1 h
        injection h with h2 h
        exact Or.inl ⟨h1.symm, h2.symm⟩
      | ok res =>
        obtain ⟨p, al'⟩ := res
        rw [hn] at h
        injection h with h1 h
        injection h with h2 h
        obtain ⟨hrec, hmem⟩ := ipAllocateNext_ok al p al' hn
        exact Or.inr ⟨p, al, h1.symm, rfl, hmem, by rw [← h2, hrec]⟩
    · rw [if_neg hip] at h
      cases hn : ipAllocate al ip with
      | error msg =>
        rw [hn] at h
        injection h with h1 h
        injection h with h2 h
        exact Or.inl ⟨h1.symm, h2.symm⟩
      | ok al' =>
        rw [hn] at h
        injection h with h1 h
        injection h with h2 h
        obtain ⟨hrec, hmem⟩ := ipAllocate_ok al ip al' hn
        exact Or.inr ⟨ip, al, h1.symm, rfl, hmem, by rw [← h2, hrec]⟩

/-- One step of the allocClusterIPs loop, phrased on allocator fields: the
touched family is staged over its pre-state, the other family and the
remaining fields are unchanged. -/
theorem allocFamilyClusterIP_famStaged (rsm : RESTState) (f : IPFamily) (ip : String)
    (got : Option String) (rs' : RESTState) (e : Option ApiError)
    (h : allocFamilyClusterIP rsm f ip = (got, rs', e)) :
    FamStaged (getAlloc rsm f) (getAlloc rs' f) got ∧
    (∀ g, g ≠ f → getAlloc rs' g = getAlloc rsm g) ∧
    rs'.defaultServiceIPFamily = rsm.defaultServiceIPFamily ∧
    rs'.serviceNodePorts = rsm.serviceNodePorts := by
  rcases allocFamilyClusterIP_spec rsm f ip got rs' e h with
    ⟨hg, hrs⟩ | ⟨p, al, hg, hga, hmem, hrs⟩
  · rw [hg, hrs]
    exact ⟨rfl, fun g _ => rfl, rfl, rfl⟩
  · rw [hg, hrs, hga]
    refine ⟨⟨al, rfl, hmem, ?_⟩, ?_, ?_, ?_⟩
    · cases f <;> simp [getAlloc, setAlloc]
    · intro g hgf
      cases f <;> cases g <;> simp_all [getAlloc, setAlloc]
    · cases f <;> simp [setAlloc]
    · cases f <;> simp [setAlloc]

theorem allocClusterIPs_staged (rs : RESTState) (toAlloc : FamMap) (m : FamMap)
    (rs' : RESTState) (e : Option ApiError)
    (h : allocClusterIPs rs toAlloc = (m, rs', e)) : IPStaged rs m rs' := by
  unfold allocClusterIPs at h
  have step4spec : ∀ (got4 : Option String) (rs4 : RESTState) (e4 : Option ApiError),
      (match toAlloc.v4 with
        | none => ((none : Option String), rs, (none : Option ApiError))
        | some ip => allocFamilyClusterIP rs .ipv4 ip) = (got4, rs4, e4) →
      FamStaged (getAlloc rs .ipv4) (getAlloc rs4 .ipv4) got4 ∧
      getAlloc rs4 .ipv6 = getAlloc rs .ipv6 ∧
      rs4.defaultServiceIPFamily = rs.defaultServiceIPFamily ∧
      rs4.serviceNodePorts = rs.serviceNodePorts := by
    intro got4 rs4 e4 hstep
    cases hv : toAlloc.v4 with
    | none =>
      rw [hv] at hstep
      injection hstep with h1 hstep
      injection hstep with h2 _
      rw [← h1, ← h2]
      exact ⟨rfl, rfl, rfl, rfl⟩
    | some ip =>
      rw [hv] at hstep
      obtain ⟨hf, ho, hd, hp⟩ := allocFamilyClusterIP_famStaged rs .ipv4 ip got4 rs4 e4 hstep
      exact ⟨hf, ho .ipv6 (by intro hc; cases hc), hd, hp⟩
  rcases hstep4 : (match toAlloc.v4 with
      | none => ((none : Option String), rs, (none : Option ApiError))
      | some ip => allocFamilyClusterIP rs .ipv4 ip) with ⟨got4, rs4, e4⟩
  obtain ⟨hst4, hv6eq, hd4, hp4⟩ := step4spec got4 rs4 e4 hstep4
  rw [hstep4] at h
  cases e4 with
  | some e4v =>
    dsimp only at h
    injection h with h1 h
    injection h with h2 _
    rw [← h1, ← h2]
    exact ⟨hst4, hv6eq, hd4, hp4⟩
  | none =>
    dsimp only at h
    have step6spec : ∀ (got6 : Option String) (rs6 : RESTState) (e6 : Option ApiError),
        (match toAlloc.v6 with
          | none => ((none : Option String), rs4, (none : Option ApiError))
          | some ip => allocFamilyClusterIP rs4 .ipv6 ip) = (got6, rs6, e6) →
        FamStaged (getAlloc rs4 .ipv6) (getAlloc rs6 .ipv6) got6 ∧
        getAlloc rs6 .ipv4 = getAlloc rs4 .ipv4 ∧
        rs6.defaultServiceIPFamily = rs4.defaultServiceIPFamily ∧
        rs6.serviceNodePorts = rs4.serviceNodePorts := by
      intro got6 rs6 e6 hstep
      cases hv : toAlloc.v6 with
      | none =>
        rw [hv] at hstep
        injection hstep with h1 hstep
        injection hstep with h2 _
        rw [← h1, ← h2]
        exact ⟨rfl, rfl, rfl, rfl⟩
      | some ip =>
        rw [hv] at hstep
        obtain ⟨hf, ho, hd, hp⟩ := allocFamilyClusterIP_famStaged rs4 .ipv6 ip got6 rs6 e6 hstep
        exact ⟨hf, ho .ipv4 (by intro hc; cases hc), hd, hp⟩
    rcases hstep6 : (match toAlloc.v6 with
        | none => ((none : Option String), rs4, (none : Option ApiError))
        | some ip => allocFamilyClusterIP rs4 .ipv6 ip) with ⟨got6, rs6, e6⟩
    obtain ⟨hst6, hv4eq, hd6, hp6⟩ := step6spec got6 rs6 e6 hstep6
    rw [hstep6] at h
    injection h with h1 h
    injection h with h2 _
    rw [← h1, ← h2]
    refine ⟨?_, ?_, by rw [hd6, hd4], by rw [hp6, hp4]⟩
    · show FamStaged (getAlloc rs .ipv4) (getAlloc rs6 .ipv4) ((⟨got4, got6⟩ : FamMap)).v4
      rw [show getAlloc rs6 .ipv4 = getAlloc rs4 .ipv4 from hv4eq]
      exact hst4
    · show FamStaged (getAlloc rs .ipv6) (getAlloc rs6 .ipv6) ((⟨got4, got6⟩ : FamMap)).v6
      rw [show (getAlloc rs .ipv6) = (getAlloc rs4 .ipv6) from hv6eq.symm]
      exact hst6

theorem allocServiceClusterIPs_staged (rs : RESTState) (svc : Service) (m : FamMap)
    (rs' : RESTState) (svc' : Service) (e : Option ApiError)
    (h : allocServiceClusterIPs rs svc = (m, rs', svc', e)) : IPStaged rs m rs' := by
  unfold allocServiceClusterIPs at h
  by_cases h1 : svc.spec.type = ServiceType.externalName
  · rw [if_pos h1] at h
    injection h with hm h
    injection h with hrs _
    rw [← hm, ← hrs]
    exact ⟨rfl, rfl, rfl, rfl⟩
  · rw [if_neg h1] at h
    by_cases h2 : svc.spec.clusterIPs.head? = some clusterIPNone
    · rw [if_pos h2] at h
      injection h with hm h
      injection h with hrs _
      rw [← hm, ← hrs]
      exact ⟨rfl, rfl, rfl, rfl⟩
    · rw [if_neg h2] at h
      rcases hext : extendAndCollect svc.spec.ipFamilies svc.spec.clusterIPs 0 FamMap.empty
        with ⟨cips, toAlloc⟩
      rw [hext] at h
      dsimp only at h
      rcases halloc : allocClusterIPs rs toAlloc with ⟨allocated, rsA, eA⟩
      rw [halloc] at h
      cases eA with
      | some eAv =>
        dsimp only at h
        injection h with hm h
        injection h with hrs _
        rw [← hm, ← hrs]
        exact allocClusterIPs_staged rs toAlloc allocated rsA (some eAv) halloc
      | none =>
        dsimp only at h
        injection h with hm h
        injection h with hrs _
        rw [← hm, ← hrs]
        exact allocClusterIPs_staged rs toAlloc allocated rsA none halloc

/-- Releasing exactly the staged addresses restores the allocator fields;
the other fields of the state the release runs on are untouched. -/
theorem releaseClusterIPs_restores (rs : RESTState) (m : FamMap) (rs1 : RESTState)
    (h4 : FamStaged rs.v4Alloc rs1.v4Alloc m.v4)
    (h6 : FamStaged rs.v6Alloc rs1.v6Alloc m.v6) :
    (releaseClusterIPs rs1 m).2.1 = { rs1 with v4Alloc := rs.v4Alloc, v6Alloc := rs.v6Alloc } := by
  unfold releaseClusterIPs
  cases hm4 : m.v4 with
  | none =>
    rw [hm4] at h4
    unfold FamStaged at h4
    cases hm6 : m.v6 with
    | none =>
      rw [hm6] at h6
      simp only [FamStaged] at h4 h6
      cases rs1
      simp_all
    | some ip6 =>
      rw [hm6] at h6
      simp only [FamStaged] at h4
      obtain ⟨al6, ha6, hmem6, hset6⟩ := h6
      simp only [releaseFamilyClusterIP, getAlloc, hset6, ipRelease, if_pos hmem6,
        List.erase_cons_head, setAlloc]
      cases rs1
      simp_all [getAlloc, setAlloc]
  | some ip4 =>
    rw [hm4] at h4
    obtain ⟨al4, ha4, hmem4, hset4⟩ := h4
    cases hm6 : m.v6 with
    | none =>
      rw [hm6] at h6
      simp only [FamStaged] at h6
      simp only [releaseFamilyClusterIP, getAlloc, hset4, ipRelease, if_pos hmem4,
        List.erase_cons_head, setAlloc]
      cases rs1
      simp_all [getAlloc, setAlloc]
    | some ip6 =>
      rw [hm6] at h6
      obtain ⟨al6, ha6, hmem6, hset6⟩ := h6
      simp only [releaseFamilyClusterIP, getAlloc, hset4, hset6, ipRelease, if_pos hmem4,
        if_pos hmem6, List.erase_cons_head, setAlloc]
      cases rs1
      simp_all [getAlloc, setAlloc]

/-- Two states agreeing on the non-allocator fields are equal after the
allocator fields are written back. -/
theorem restState_writeback_eq (rs rs1 : RESTState)
    (h1 : rs1.defaultServiceIPFamily = rs.defaultServiceIPFamily)
    (h2 : rs1.serviceNodePorts = rs.serviceNodePorts) :
    { rs1 with v4Alloc := rs.v4Alloc, v6Alloc := rs.v6Alloc } = rs := by
  cases rs
  cases rs1
  simp_all

theorem opAllocate_ok_spec (op : PortOp) (p : Int) (op' : PortOp)
    (hd : op.dryRun = false) (h : opAllocate op p = .ok op') :
    op'.pa.pool = op.pa.pool ∧ op'.pa.allocated = p :: op.pa.allocated ∧
    op'.allocated = op.allocated ++ [p] ∧ op'.deferredRelease = op.deferredRelease ∧
    op'.dryRun = op.dryRun ∧ op'.mayRollback = op.mayRollback ∧
    p ∈ op.pa.pool ∧ p ∉ op.pa.allocated := by
  unfold opAllocate at h
  rw [hd] at h
  simp only [Bool.false_eq_true, if_false] at h
  cases hp : paAllocate op.pa p with
  | error msg => rw [hp] at h; cases h
  | ok pa' =>
    rw [hp] at h
    injection h with h
    obtain ⟨hrec, hmem, hnin⟩ := paAllocate_ok op.pa p pa' hp
    subst hrec
    rw [← h]
    exact ⟨rfl, rfl, rfl, rfl, by rw [hd], rfl, hmem, hnin⟩

theorem opAllocateNext_ok_spec (op : PortOp) (n : Int) (op' : PortOp)
    (hd : op.dryRun = false) (h : opAllocateNext op = .ok (n, op')) :
    op'.pa.pool = op.pa.pool ∧ op'.pa.allocated = n :: op.pa.allocated ∧
    op'.allocated = op.allocated ++ [n] ∧ op'.deferredRelease = op.deferredRelease ∧
    op'.dryRun = op.dryRun ∧ op'.mayRollback = op.mayRollback ∧
    n ∈ op.pa.pool ∧ n ∉ op.pa.allocated := by
  unfold opAllocateNext at h
  rw [hd] at h
  simp only [Bool.false_eq_true, if_false] at h
  cases hp : paAllocateNext op.pa with
  | error msg => rw [hp] at h; cases h
  | ok res =>
    obtain ⟨q, pa'⟩ := res
    rw [hp] at h
    simp only [Except.ok.injEq, Prod.mk.injEq] at h
    obtain ⟨h1, h2⟩ := h
    subst h1
    obtain ⟨hrec, hmem, hnin⟩ := paAllocateNext_ok op.pa q pa' hp
    subst hrec
    rw [← h2]
    exact ⟨rfl, rfl, rfl, rfl, by rw [hd], rfl, hmem, hnin⟩

theorem opAllocate_staged (orig : PortAlloc) (op : PortOp) (p : Int) (op' : PortOp)
    (hst : StagedOk orig op) (h : opAllocate op p = .ok op') : StagedOk orig op' := by
  obtain ⟨hd, hm, hpool, halloc, hnd, hinp, hnin⟩ := hst
  obtain ⟨h1, h2, h3, h4, h5, h6, hmem, hnal⟩ := opAllocate_ok_spec op p op' hd h
  have hpnotstaged : p ∉ op.allocated := by
    intro hc
    apply hnal
    rw [halloc]
    exact List.mem_append.mpr (Or.inl (List.mem_reverse.mpr hc))
  have hpnotorig : p ∉ orig.allocated := by
    intro hc
    apply hnal
    rw [halloc]
    exact List.mem_append.mpr (Or.inr hc)
  refine ⟨by rw [h5, hd], by rw [h6, hm], by rw [h1, hpool], ?_, ?_, ?_, ?_⟩
  · rw [h2, h3, halloc]
    simp
  · rw [h3]
    simp [List.nodup_append, hnd, hpnotstaged]
  · intro q hq
    rw [h3] at hq
    rcases List.mem_append.mp hq with hq | hq
    · exact hinp q hq
    · rcases List.mem_singleton.mp hq with rfl
      rw [← hpool]
      exact hmem
  · intro q hq
    rw [h3] at hq
    rcases List.mem_append.mp hq with hq | hq
    · exact hnin q hq
    · rcases List.mem_singleton.mp hq with rfl
      exact hpnotorig

theorem opAllocateNext_staged_ok (orig : PortAlloc) (op : PortOp) (n : Int) (op' : PortOp)
    (hst : StagedOk orig op) (h : opAllocateNext op = .ok (n, op')) : StagedOk orig op' := by
  obtain ⟨hd, hm, hpool, halloc, hnd, hinp, hnin⟩ := hst
  obtain ⟨h1, h2, h3, h4, h5, h6, hmem, hnal⟩ := opAllocateNext_ok_spec op n op' hd h
  have hpnotstaged : n ∉ op.allocated := by
    intro hc
    apply hnal
    rw [halloc]
    exact List.mem_append.mpr (Or.inl (List.mem_reverse.mpr hc))
  have hpnotorig : n ∉ orig.allocated := by
    intro hc
    apply hnal
    rw [halloc]
    exact List.mem_append.mpr (Or.inr hc)
  refine ⟨by rw [h5, hd], by rw [h6, hm], by rw [h1, hpool], ?_, ?_, ?_, ?_⟩
  · rw [h2, h3, halloc]
    simp
  · rw [h3]
    simp [List.nodup_append, hnd, hpnotstaged]
  · intro q hq
    rw [h3] at hq
    rcases List.mem_append.mp hq with hq | hq
    · exact hinp q hq
    · rcases List.mem_singleton.mp hq with rfl
      rw [← hpool]
      exact hmem
  · intro q hq
    rw [h3] at hq
    rcases List.mem_append.mp hq with hq | hq
    · exact hnin q hq
    · rcases List.mem_singleton.mp hq with rfl
      exact hpnotorig

theorem startOperation_staged (pa : PortAlloc) :
    StagedOk pa (startOperation pa false) := by
  refine ⟨rfl, rfl, rfl, by simp [startOperation], by simp [startOperation], ?_, ?_⟩
  · intro p hp
    simp [startOperation] at hp
  · intro p hp
    simp [startOperation] at hp

theorem initLoop_staged (todo : List ServicePort) :
    ∀ (pre : List ServicePort) (m : List (Int × Int)) (op : PortOp) (orig : PortAlloc)
      (r : Except ApiError (List ServicePort × List (Int × Int))) (op' : PortOp),
    StagedOk orig op → initNodePortsLoop pre todo m op = (r, op') → StagedOk orig op' := by
  induction todo with
  | nil =>
    intro pre m op orig r op' hst hres
    unfold initNodePortsLoop at hres
    injection hres with _ h
    rw [← h]
    exact hst
  | cons sp rest ih =>
    intro pre m op orig r op' hst hres
    unfold initNodePortsLoop at hres
    by_cases hv : valOf m sp.port = 0
    · rw [if_pos hv] at hres
      dsimp only at hres
      by_cases hnp : findRequestedNodePort sp.port (pre ++ sp :: rest) ≠ 0
      · rw [if_pos hnp] at hres
        cases hca : opAllocate op (findRequestedNodePort sp.port (pre ++ sp :: rest)) with
        | error msg =>
          rw [hca] at hres
          injection hres with _ h
          rw [← h]
          exact hst
        | ok op2 =>
          rw [hca] at hres
          exact ih _ _ _ _ _ _ (opAllocate_staged orig op _ op2 hst hca) hres
      · rw [if_neg hnp] at hres
        cases hca : opAllocateNext op with
        | error msg =>
          rw [hca] at hres
          injection hres with _ h
          rw [← h]
          exact hst
        | ok res2 =>
          obtain ⟨n, op2⟩ := res2
          rw [hca] at hres
          exact ih _ _ _ _ _ _ (opAllocateNext_staged_ok orig op n op2 hst hca) hres
    · rw [if_neg hv] at hres
      by_cases hdp : sp.nodePort ≠ valOf m sp.port
      · rw [if_pos hdp] at hres
        by_cases hz : sp.nodePort = 0
        · rw [if_pos hz] at hres
          exact ih _ _ _ _ _ _ hst hres
        · rw [if_neg hz] at hres
          cases hca : opAllocate op sp.nodePort with
          | error msg =>
            rw [hca] at hres
            injection hres with _ h
            rw [← h]
            exact hst
          | ok op2 =>
            rw [hca] at hres
            exact ih _ _ _ _ _ _ (opAllocate_staged orig op _ op2 hst hca) hres
      · rw [if_neg hdp] at hres
        exact ih _ _ _ _ _ _ hst hres

theorem allocateHealthCheckNodePort_staged (orig : PortAlloc) (svc : Service) (op : PortOp)
    (svc' : Service) (op' : PortOp) (hst : StagedOk orig op)
    (h : allocateHealthCheckNodePort svc op = .ok (svc', op')) : StagedOk orig op' := by
  unfold allocateHealthCheckNodePort at h
  by_cases hz : svc.spec.healthCheckNodePort ≠ 0
  · rw [if_pos hz] at h
    cases hca : opAllocate op svc.spec.healthCheckNodePort with
    | error msg => rw [hca] at h; cases h
    | ok op2 =>
      rw [hca] at h
      simp only [Except.ok.injEq, Prod.mk.injEq] at h
      obtain ⟨_, h2⟩ := h
      rw [← h2]
      exact opAllocate_staged orig op _ op2 hst hca
  · rw [if_neg hz] at h
    cases hca : opAllocateNext op with
    | error msg => rw [hca] at h; cases h
    | ok res =>
      obtain ⟨n, op2⟩ := res
      rw [hca] at h
      simp only [Except.ok.injEq, Prod.mk.injEq] at h
      obtain ⟨_, h2⟩ := h
      rw [← h2]
      exact opAllocateNext_staged_ok orig op n op2 hst hca

theorem createPortsPhase_staged (orig : PortAlloc) (svc : Service) (extTrafficOk : Bool)
    (op : PortOp) (r : Except ApiError Service) (op' : PortOp) (hst : StagedOk orig op)
    (h : createPortsPhase svc extTrafficOk op = (r, op')) : StagedOk orig op' := by
  unfold createPortsPhase at h
  have step1spec : ∀ (r1 : Except ApiError Service) (op1 : PortOp),
      (if svc.spec.type = .nodePort ∨ svc.spec.type = .loadBalancer then
        match initNodePorts svc op with
        | (.ok (svc', _), opx) => ((.ok svc' : Except ApiError Service), opx)
        | (.error e, opx) => ((.error e : Except ApiError Service), opx)
      else ((.ok svc : Except ApiError Service), op)) = (r1, op1) → StagedOk orig op1 := by
    intro r1 op1 hstep
    by_cases hty : svc.spec.type = .nodePort ∨ svc.spec.type = .loadBalancer
    · rw [if_pos hty] at hstep
      unfold initNodePorts at hstep
      rcases hloop : initNodePortsLoop [] svc.spec.ports [] op with ⟨rl, opl⟩
      rw [hloop] at hstep
      have hstl := initLoop_staged svc.spec.ports [] [] op orig rl opl hst hloop
      cases rl with
      | error e =>
        dsimp only at hstep
        injection hstep with _ h2
        rw [← h2]
        exact hstl
      | ok v =>
        obtain ⟨ports', mm⟩ := v
        dsimp only at hstep
        injection hstep with _ h2
        rw [← h2]
        exact hstl
    · rw [if_neg hty] at hstep
      injection hstep with _ h2
      rw [← h2]
      exact hst
  rcases hstep1 : (if svc.spec.type = .nodePort ∨ svc.spec.type = .loadBalancer then
      match initNodePorts svc op with
      | (.ok (svc', _), opx) => ((.ok svc' : Except ApiError Service), opx)
      | (.error e, opx) => ((.error e : Except ApiError Service), opx)
    else ((.ok svc : Except ApiError Service), op)) with ⟨r1, op1⟩
  have hst1 := step1spec r1 op1 hstep1
  rw [hstep1] at h
  cases r1 with
  | error e =>
    dsimp only at h
    injection h with _ h2
    rw [← h2]
    exact hst1
  | ok svc1 =>
    dsimp only at h
    have step2spec : ∀ (r2 : Except ApiError Service) (op2 : PortOp),
        (if needsHealthCheck svc1 then
          match allocateHealthCheckNodePort svc1 op1 with
          | .error msg => ((.error (.internal msg) : Except ApiError Service), op1)
          | .ok (svc', opx) => ((.ok svc' : Except ApiError Service), opx)
        else ((.ok svc1 : Except ApiError Service), op1)) = (r2, op2) → StagedOk orig op2 := by
      intro r2 op2 hstep
      by_cases hhc : needsHealthCheck svc1 = true
      · rw [if_pos hhc] at hstep
        cases hca : allocateHealthCheckNodePort svc1 op1 with
        | error msg =>
          rw [hca] at hstep
          injection hstep with _ h2
          rw [← h2]
          exact hst1
        | ok res =>
          obtain ⟨svc2, opx⟩ := res
          rw [hca] at hstep
          injection hstep with _ h2
          rw [← h2]
          exact allocateHealthCheckNodePort_staged orig svc1 op1 svc2 opx hst1 hca
      · rw [if_neg hhc] at hstep
        injection hstep with _ h2
        rw [← h2]
        exact hst1
    rcases hstep2 : (if needsHealthCheck svc1 then
        match allocateHealthCheckNodePort svc1 op1 with
        | .error msg => ((.error (.internal msg) : Except ApiError Service), op1)
        | .ok (svc', opx) => ((.ok svc' : Except ApiError Service), opx)
      else ((.ok svc1 : Except ApiError Service), op1)) with ⟨r2, op2⟩
    have hst2 := step2spec r2 op2 hstep2
    rw [hstep2] at h
    cases r2 with
    | error e =>
      dsimp only at h
      injection h with _ h2
      rw [← h2]
      exact hst2
    | ok svc2 =>
      dsimp only at h
      by_cases hext : extTrafficOk = true
      · rw [if_pos hext] at h
        injection h with _ h2
        rw [← h2]
        exact hst2
      · rw [if_neg hext] at h
        injection h with _ h2
        rw [← h2]
        exact hst2

theorem paReleaseAll_rollback (s : List Int) : ∀ (A pool : List Int),
    s.Nodup → (∀ p ∈ s, p ∈ pool) →
    paReleaseAll ⟨pool, s.reverse ++ A⟩ s = ⟨pool, A⟩ := by
  induction s with
  | nil =>
    intro A pool _ _
    rfl
  | cons a s' ih =>
    intro A pool hnd hmem
    have ha : a ∈ pool := hmem a (List.mem_cons_self a s')
    have hnotin : a ∉ s' := (List.nodup_cons.mp hnd).1
    have hrw : ((a :: s').reverse ++ A : List Int) = s'.reverse ++ (a :: A) := by simp
    unfold paReleaseAll
    rw [hrw]
    rw [List.foldl_cons]
    have hstep : (match paRelease ⟨pool, s'.reverse ++ (a :: A)⟩ a with
        | .ok pa' => pa'
        | .error _ => ⟨pool, s'.reverse ++ (a :: A)⟩) = (⟨pool, s'.reverse ++ A⟩ : PortAlloc) := by
      unfold paRelease
      rw [if_pos ha]
      dsimp only
      rw [List.erase_append_right (a :: A) (by simp [hnotin]), List.erase_cons_head]
    rw [hstep]
    have := ih A pool (List.nodup_cons.mp hnd).2 (fun p hp => hmem p (List.mem_cons_of_mem a hp))
    unfold paReleaseAll at this
    exact this

theorem finishOp_restores (orig : PortAlloc) (op : PortOp) (hst : StagedOk orig op) :
    (finishOp op).pa = orig := by
  obtain ⟨hd, hm, hpool, halloc, hnd, hinp, hnin⟩ := hst
  unfold finishOp
  rw [hd, hm]
  simp only [Bool.not_false, Bool.and_self, if_true]
  have hpa : op.pa = (⟨orig.pool, op.allocated.reverse ++ orig.allocated⟩ : PortAlloc) := by
    cases hc : op.pa
    simp_all
  rw [hpa, paReleaseAll_rollback op.allocated orig.allocated orig.pool hnd hinp]

/-- C1: every non-dry-run Create that returns an error leaves the whole
allocator state - both per-family cluster-IP allocators and the node-port
allocator - exactly as it was before the call: the scope guard releases
every cluster IP allocated during the call, and the operation's Finish
rolls back all staged node-port allocations, the staged health-check node
port included. -/
theorem C1_create_error_restores_allocators (rs : RESTState) (svc : Service)
    (gates : FeatureGates) (beforeCreateOk extTrafficOk storeOk : Bool)
    (herr : (restCreate rs svc gates beforeCreateOk extTrafficOk storeOk false).1.isOk
      = false) :
    (restCreate rs svc gates beforeCreateOk extTrafficOk storeOk false).2 = rs := by
  unfold restCreate at herr ⊢
  cases beforeCreateOk with
  | false => rfl
  | true =>
    rw [if_neg (by decide : ¬(true = false))] at herr ⊢
    dsimp only at herr ⊢
    cases hdef : tryDefaultValidateServiceClusterIPFields rs
        (svcStrategyPrepareForCreate gates svc) with
    | error e => simp only [hdef]
    | ok svc2 =>
      simp only [hdef] at herr ⊢
      rcases halloc : allocServiceClusterIPs rs svc2 with ⟨toRelease, rs1, svc3, ipErr⟩
      simp only [halloc, Bool.false_eq_true, if_false] at herr ⊢
      obtain ⟨hst4, hst6, hstd, hstp⟩ :=
        allocServiceClusterIPs_staged rs svc2 toRelease rs1 svc3 ipErr halloc
      cases ipErr with
      | some e =>
        rcases hrel : releaseClusterIPs rs1 toRelease with ⟨rel, rs2, err2⟩
        simp only [hrel]
        have hr := releaseClusterIPs_restores rs toRelease rs1 hst4 hst6
        rw [hrel] at hr
        dsimp only at hr
        rw [hr]
        exact restState_writeback_eq rs rs1 hstd hstp
      | none =>
        rcases hphase : createPortsPhase svc3 extTrafficOk
            (startOperation rs1.serviceNodePorts false) with ⟨r1, op1⟩
        simp only [hphase] at herr ⊢
        have hstP := createPortsPhase_staged rs1.serviceNodePorts svc3 extTrafficOk
          (startOperation rs1.serviceNodePorts false) r1 op1
          (startOperation_staged rs1.serviceNodePorts) hphase
        have hfin : (finishOp op1).pa = rs1.serviceNodePorts :=
          finishOp_restores rs1.serviceNodePorts op1 hstP
        have hrs2 : ({ rs1 with serviceNodePorts := (finishOp op1).pa } : RESTState)
            = rs1 := by
          rw [hfin]
        cases r1 with
        | error e =>
          rcases hrel : releaseClusterIPs rs1 toRelease with ⟨rel, rs3, err3⟩
          have hr := releaseClusterIPs_restores rs toRelease rs1 hst4 hst6
          rw [hrel] at hr
          dsimp only at hr
          simp only [hrs2, hrel]
          rw [hr]
          exact restState_writeback_eq rs rs1 hstd hstp
        | ok svc4 =>
          cases storeOk with
          | true => simp [Except.isOk, Except.toBool] at herr
          | false =>
            rcases hrel : releaseClusterIPs rs1 toRelease with ⟨rel, rs3, err3⟩
            have hr := releaseClusterIPs_restores rs toRelease rs1 hst4 hst6
            rw [hrel] at hr
            dsimp only at hr
            simp only [hrs2, hrel]
            rw [hr]
            exact restState_writeback_eq rs rs1 hstd hstp

/-- C1 witness: on an IPv4-only cluster, creating a plain ClusterIP
service with a failing object store returns an error and leaves the state
exactly as before. -/
theorem C1_witness :
    (restCreate rsV4Only svcPlainClusterIP gatesAllOn true true false false).1.isOk = false ∧
    (restCreate rsV4Only svcPlainClusterIP gatesAllOn true true false false).2 = rsV4Only :=
  ⟨by decide, C1_create_error_restores_allocators rsV4Only svcPlainClusterIP gatesAllOn
    true true false (by decide)⟩

/-- C2 counterexample: two entries of the same Port 80 requesting the
distinct node ports 30001 and 30002: initNodePorts succeeds and the two
entries keep different NodePort values, contradicting the claim that any
two entries with the same Port carry the same NodePort. -/
theorem C2_counterexample :
    svcTwoPorts.spec.ports.map (fun sp => sp.port) = [80, 80] ∧
    (initNodePorts svcTwoPorts opSmall).1.map
        (fun x => x.1.spec.ports.map (fun sp => sp.nodePort))
      = .ok [30001, 30002] := by
  decide

/-- C2 (amended): after initNodePorts returns success at create time, any
two entries of the Ports list that share the same Port number carry the
same NodePort value, unless one of them requested (and, after a second
specific allocation, kept) its own distinct non-zero NodePort in the
input; the hypothesis `0 not in the port range` reflects that valid node
port ranges never contain port zero. -/
theorem C2_same_port_shares_nodeport (svc : Service) (op : PortOp)
    (svc' : Service) (mfin : List (Int × Int)) (op' : PortOp)
    (hty : svc.spec.type = .nodePort ∨ svc.spec.type = .loadBalancer)
    (hwf : (0 : Int) ∉ op.pa.pool)
    (hres : initNodePorts svc op = (.ok (svc', mfin), op'))
    (i j : Nat) (qi qj oi oj : ServicePort)
    (hqi : svc'.spec.ports[i]? = some qi) (hqj : svc'.spec.ports[j]? = some qj)
    (hoi : svc.spec.ports[i]? = some oi) (hoj : svc.spec.ports[j]? = some oj)
    (hport : qi.port = qj.port) :
    qi.nodePort = qj.nodePort ∨
    (oi.nodePort ≠ 0 ∧ qi.nodePort = oi.nodePort) ∨
    (oj.nodePort ≠ 0 ∧ qj.nodePort = oj.nodePort) := by
  unfold initNodePorts at hres
  cases hloop : initNodePortsLoop [] svc.spec.ports [] op with
  | mk r opl =>
    rw [hloop] at hres
    cases r with
    | error e => cases hres
    | ok v =>
      obtain ⟨ports', mm⟩ := v
      simp only [Prod.mk.injEq, Except.ok.injEq] at hres
      obtain ⟨⟨hsvc, hmm⟩, hop⟩ := hres
      have hinv := initLoop_entryRel svc.spec.ports [] [] [] op ports' mm opl hwf rfl
        (fun k pk yk hp ho => by cases hp) (fun yk h => by cases h) hloop
      have hports : svc'.spec.ports = ports' := by rw [← hsvc]
      rw [hports] at hqi hqj
      have hri := hinv.1 i qi oi hqi (by simpa using hoi)
      have hrj := hinv.1 j qj oj hqj (by simpa using hoj)
      obtain ⟨hpi, hni⟩ := hri
      obtain ⟨hpj, hnj⟩ := hrj
      cases hni with
      | inl hi =>
        cases hnj with
        | inl hj =>
          left
          rw [hi, hj, ← hpi, ← hpj, hport]
        | inr hj => right; right; exact hj
      | inr hi => right; left; exact hi

/-- C2 witness: two entries sharing Port 80 where the second leaves its
NodePort to be defaulted: both end up with the first chosen node port
30001. -/
theorem C2_witness :
    initNodePorts svcTwoPortsZero opSmall
      = (.ok (svcTwoPortsZeroOut, [(80, 30001)]), opSmallAfter) ∧
    ((⟨"a", "TCP", 80, 30001⟩ : ServicePort).nodePort
        = (⟨"b", "TCP", 80, 30001⟩ : ServicePort).nodePort ∨
      ((⟨"a", "TCP", 80, 30001⟩ : ServicePort).nodePort ≠ 0 ∧
        (⟨"a", "TCP", 80, 30001⟩ : ServicePort).nodePort
          = (⟨"a", "TCP", 80, 30001⟩ : ServicePort).nodePort) ∨
      ((⟨"b", "TCP", 80, 0⟩ : ServicePort).nodePort ≠ 0 ∧
        (⟨"b", "TCP", 80, 30001⟩ : ServicePort).nodePort
          = (⟨"b", "TCP", 80, 0⟩ : ServicePort).nodePort)) :=
  ⟨by decide,
    C2_same_port_shares_nodeport svcTwoPortsZero opSmall svcTwoPortsZeroOut [(80, 30001)]
      opSmallAfter (Or.inl (by decide)) (by decide) (by decide) 0 1 _ _ _ _
      (by decide) (by decide) (by decide) (by decide) (by decide)⟩

end KubeSvc
